import Mathlib

set_option maxRecDepth 8000
set_option maxHeartbeats 1600000

/-!
Shallow embedding of `src/extensions/amp-ad-network-fake-impl/0.1/external-reorder-head-transformer.js`.

The transformer classifies the direct children of a `<head>` DOM element into
a registry of buckets (`this.headComponents`, built in the constructor), then
clears the head and re-appends the bucket contents in a fixed order.

Modelling choices, all taken from the source:
* a DOM element is a record of tag name and attribute list, with a `nodeId`
  standing for JavaScript reference identity;
* the head's child list is a `List Element`; a `null` head is `none`;
* `parent.appendChild(child)` relocates a child that is already attached, so
  it is modelled as "remove every occurrence, then append at the end";
* `reorderHead` on a `null` head skips classification (the loop is guarded by
  `head != null`) but then executes `head.innerHTML = ''` unconditionally,
  which dereferences null; this fault is modelled as `Except.error ()`.
-/

namespace AmpReorder

/-- A DOM element as seen through the capability set the transformer uses:
tag name, attribute lookup, attribute presence test.  The `nodeId` field
stands for JavaScript reference identity: two distinct DOM nodes are distinct
values even when their tag name and attributes coincide. -/
structure Element where
  nodeId : Nat
  tagName : String
  attrs : List (String × String)
deriving DecidableEq, Repr

/-- JavaScript `element.hasAttribute(name)`. -/
def hasAttribute (e : Element) (n : String) : Bool :=
  e.attrs.any (fun a => a.1 == n)

/-- JavaScript `element.getAttribute(name)`: the attribute's value, or `none`
(JavaScript `null`) when the attribute is absent. -/
def getAttribute (e : Element) (n : String) : Option String :=
  (e.attrs.find? (fun a => a.1 == n)).map (fun a => a.2)

/-- Modelled from the spec: the helper `startsWith` is imported by the
transformer from `src/string.js`, a file of this repository that is not under
`src/`.  Per spec section 7, all rule matching is defensive prefix/suffix
testing against possibly-absent attributes, an absent attribute (JavaScript
`null`) being treated as non-matching rather than as a failure. -/
def strStartsWith : Option String → String → Bool
  | none, _ => false
  | some s, p => List.isPrefixOf p.data s.data

/-- Modelled from the spec: the helper `endsWith` from `src/string.js` (not
under `src/`), defensive suffix test; an absent attribute is non-matching. -/
def strEndsWith : Option String → String → Bool
  | none, _ => false
  | some s, p => List.isPrefixOf p.data.reverse s.data.reverse

/-- The bucket registry `this.headComponents`, one field per slot, exactly as
initialised in the constructor of `ExternalReorderHeadTransformer`. -/
structure HeadComponents where
  metaOther : List Element
  scriptNonRenderDelayingExtensions : List Element
  scriptRenderDelayingExtensions : List Element
  linkIcons : List Element
  linkResourceHints : List Element
  linkStylesheetBeforeAmpCustom : List Element
  other : List Element
  styleAmpRuntime : Option Element
  metaCharset : Option Element
  scriptAmpEngine : Option Element
  scriptAmpViewer : Option Element
  scriptGmailAmpViewer : Option Element
  styleAmpCustom : Option Element
  linkStylesheetRuntimeCss : Option Element
  styleAmpBoilerplate : Option Element
  noscript : Option Element
deriving DecidableEq, Repr

/-- The registry as the constructor builds it: empty lists, null slots. -/
def initComponents : HeadComponents :=
  { metaOther := []
    scriptNonRenderDelayingExtensions := []
    scriptRenderDelayingExtensions := []
    linkIcons := []
    linkResourceHints := []
    linkStylesheetBeforeAmpCustom := []
    other := []
    styleAmpRuntime := none
    metaCharset := none
    scriptAmpEngine := none
    scriptAmpViewer := none
    scriptGmailAmpViewer := none
    styleAmpCustom := none
    linkStylesheetRuntimeCss := none
    styleAmpBoilerplate := none
    noscript := none }

/-- `registerMeta` from the source: a meta carrying a `charset` attribute is
assigned to the `metaCharset` slot (unconditionally, overwriting any earlier
occupant); any other meta is appended to `metaOther` unless already present. -/
def registerMeta (hc : HeadComponents) (e : Element) : HeadComponents :=
  if hasAttribute e "charset" then
    { hc with metaCharset := some e }
  else if e ∈ hc.metaOther then hc
  else { hc with metaOther := hc.metaOther ++ [e] }

/-- `registerScript` from the source: extension scripts (any of
`custom-element`, `custom-template`, `host-service`) are classified first,
render-delaying exactly when the `custom-element` value is `amp-story`,
`amp-experiment` or `amp-dynamic-css-classes`; then the AMP engine, Gmail
viewer and viewer URL patterns (each requiring `async`); anything else is
pushed onto `other` (without a duplicate guard). -/
def registerScript (hc : HeadComponents) (e : Element) : HeadComponents :=
  let src := getAttribute e "src"
  let isAsync := hasAttribute e "async"
  let isExtension := hasAttribute e "custom-element" || hasAttribute e "custom-template" ||
    hasAttribute e "host-service"
  if isExtension then
    let custom := getAttribute e "custom-element"
    if custom = some "amp-story" ∨ custom = some "amp-experiment" ∨
        custom = some "amp-dynamic-css-classes" then
      { hc with scriptRenderDelayingExtensions := hc.scriptRenderDelayingExtensions ++ [e] }
    else
      { hc with scriptNonRenderDelayingExtensions := hc.scriptNonRenderDelayingExtensions ++ [e] }
  else if isAsync && strStartsWith src "https://cdn.ampproject.org/" &&
      (strEndsWith src "/v0.js" || strEndsWith src "/v0.js.br" ||
        strEndsWith src "/amp4ads-v0.js" || strEndsWith src "/amp4ads-v0.js.br") then
    { hc with scriptAmpEngine := some e }
  else if isAsync &&
      strStartsWith src "https://cdn.ampproject.org/v0/amp-viewer-integration-gmail-" &&
      strEndsWith src ".js" then
    { hc with scriptGmailAmpViewer := some e }
  else if isAsync &&
      (strStartsWith src "https://cdn.ampproject.org/v0/amp-viewer-integration-" ||
        (strStartsWith src "https://cdn.ampproject.org/viewer/google/v" &&
          strEndsWith src ".js")) then
    { hc with scriptAmpViewer := some e }
  else
    { hc with other := hc.other ++ [e] }

/-- `registerStyle` from the source: `amp-runtime`, then `amp-custom`, then
`amp-boilerplate`/`amp4ads-boilerplate` single slots (each overwriting);
anything else is pushed onto `other` (without a duplicate guard). -/
def registerStyle (hc : HeadComponents) (e : Element) : HeadComponents :=
  if hasAttribute e "amp-runtime" then
    { hc with styleAmpRuntime := some e }
  else if hasAttribute e "amp-custom" then
    { hc with styleAmpCustom := some e }
  else if hasAttribute e "amp-boilerplate" || hasAttribute e "amp4ads-boilerplate" then
    { hc with styleAmpBoilerplate := some e }
  else
    { hc with other := hc.other ++ [e] }

/-- `registerLink` from the source.  `rel` is compared by exact string
equality.  A stylesheet link with the AMP runtime-css URL shape claims the
`linkStylesheetRuntimeCss` slot; otherwise it is appended to
`linkStylesheetBeforeAmpCustom` only while the `styleAmpCustom` slot is still
empty, and silently dropped (registered nowhere) once that slot is occupied.
Icon and resource-hint `rel` values go to their lists; any other link is
pushed onto `other` (without a duplicate guard). -/
def registerLink (hc : HeadComponents) (e : Element) : HeadComponents :=
  let rel := getAttribute e "rel"
  if rel = some "stylesheet" then
    if strStartsWith (getAttribute e "href") "https://cdn.ampproject.org/" &&
        strEndsWith (getAttribute e "href") "/v0.css" then
      { hc with linkStylesheetRuntimeCss := some e }
    else if hc.styleAmpCustom = none then
      { hc with linkStylesheetBeforeAmpCustom := hc.linkStylesheetBeforeAmpCustom ++ [e] }
    else hc
  else if rel = some "icon" ∨ rel = some "icon shortcut" ∨ rel = some "shortcut icon" then
    { hc with linkIcons := hc.linkIcons ++ [e] }
  else if rel = some "dns-prefetch preconnect" then
    { hc with linkResourceHints := hc.linkResourceHints ++ [e] }
  else
    { hc with other := hc.other ++ [e] }

/-- One iteration of the classification loop in `reorderHead`: the `switch` on
`child.tagName`.  The `NOSCRIPT` case assigns the `noscript` slot and then,
lacking a `break`, falls through into the `default` case, which appends the
child to `other` unless already present. -/
def registerChild (hc : HeadComponents) (e : Element) : HeadComponents :=
  if e.tagName = "META" then registerMeta hc e
  else if e.tagName = "SCRIPT" then registerScript hc e
  else if e.tagName = "STYLE" then registerStyle hc e
  else if e.tagName = "LINK" then registerLink hc e
  else
    let hc1 := if e.tagName = "NOSCRIPT" then { hc with noscript := some e } else hc
    if e ∈ hc1.other then hc1 else { hc1 with other := hc1.other ++ [e] }

/-- The classification loop of `reorderHead`, over the head's children in
document order, starting from the registry state `hc` the transformer holds
when the call begins (the registry is never reset inside `reorderHead`). -/
def registerAll (hc : HeadComponents) (children : List Element) : HeadComponents :=
  children.foldl registerChild hc

/-- DOM `parent.appendChild(child)` acting on the head's child list: a node
that is already in the list is first removed from its current position, then
appended at the end (`Node.appendChild` relocates an already-inserted node
rather than duplicating it). -/
def appendChild (children : List Element) (e : Element) : List Element :=
  children.filter (fun c => decide (c ≠ e)) ++ [e]

/-- `appendIfNotNull_` from the source: append the slot's occupant when the
slot is filled, do nothing when it is null. -/
def appendIfNotNull (children : List Element) (e : Option Element) : List Element :=
  match e with
  | none => children
  | some x => appendChild children x

/-- `appendAll_` from the source: append every node of the list, in order. -/
def appendAll (children : List Element) (es : List Element) : List Element :=
  es.foldl appendChild children

/-- `repopulate` from the source: append the bucket contents back into the
head in the fixed order of the sixteen statements. -/
def repopulate (children : List Element) (hc : HeadComponents) : List Element :=
  let c := appendIfNotNull children hc.metaCharset
  let c := appendIfNotNull c hc.linkStylesheetRuntimeCss
  let c := appendIfNotNull c hc.styleAmpRuntime
  let c := appendAll c hc.metaOther
  let c := appendIfNotNull c hc.scriptAmpEngine
  let c := appendIfNotNull c hc.scriptAmpViewer
  let c := appendIfNotNull c hc.scriptGmailAmpViewer
  let c := appendAll c hc.scriptRenderDelayingExtensions
  let c := appendAll c hc.scriptNonRenderDelayingExtensions
  let c := appendAll c hc.linkIcons
  let c := appendAll c hc.linkResourceHints
  let c := appendAll c hc.linkStylesheetBeforeAmpCustom
  let c := appendIfNotNull c hc.styleAmpCustom
  let c := appendAll c hc.other
  let c := appendIfNotNull c hc.styleAmpBoilerplate
  appendIfNotNull c hc.noscript

/-- `reorderHead` from the source.  A `none` (null) head skips classification
(the loop is guarded by `head != null`), but the subsequent unconditional
`head.innerHTML = ''` dereferences the null head, modelled as
`Except.error ()`; the registry is unchanged at that point.  A non-null head
is classified into the registry the instance currently holds, cleared, and
repopulated; the call returns the updated registry together with the head's
new child list. -/
def reorderHead (hc : HeadComponents) (head : Option (List Element)) :
    Except Unit (HeadComponents × List Element) :=
  match head with
  | none => Except.error ()
  | some children =>
      let hc1 := registerAll hc children
      Except.ok (hc1, repopulate [] hc1)

/-- The first thirteen emission segments (steps 1-13 of the fixed order):
everything `repopulate` appends before the `other` list. -/
def occA (hc : HeadComponents) : List Element :=
  hc.metaCharset.toList ++ hc.linkStylesheetRuntimeCss.toList ++ hc.styleAmpRuntime.toList ++
    hc.metaOther ++ hc.scriptAmpEngine.toList ++ hc.scriptAmpViewer.toList ++
    hc.scriptGmailAmpViewer.toList ++ hc.scriptRenderDelayingExtensions ++
    hc.scriptNonRenderDelayingExtensions ++ hc.linkIcons ++ hc.linkResourceHints ++
    hc.linkStylesheetBeforeAmpCustom ++ hc.styleAmpCustom.toList

/-- All bucket occupants except the `noscript` slot, in emission order:
steps 1-13, then `other`, then the boilerplate slot. -/
def occ (hc : HeadComponents) : List Element :=
  occA hc ++ hc.other ++ hc.styleAmpBoilerplate.toList

/-- Every occupant of every bucket of the registry, in emission order. -/
def elemsAll (hc : HeadComponents) : List Element :=
  occ hc ++ hc.noscript.toList

/-- The emission order of spec section 4.2, written as data: the sixteen
steps in their fixed sequence.  One amendment forced by DOM `appendChild`
relocation: when the `noscript` slot is occupied, its occupant — which the
NOSCRIPT fall-through also placed in the `other` list — is emitted only once,
at the final noscript position (step 16), so it is filtered out of the
`other` segment (step 14). -/
def specEmit (hc : HeadComponents) : List Element :=
  occA hc ++
    (match hc.noscript with
     | some n => hc.other.filter (fun c => decide (c ≠ n))
     | none => hc.other) ++
    hc.styleAmpBoilerplate.toList ++ hc.noscript.toList

/-- The registry invariant maintained by a single `reorderHead` call on a
fresh transformer over a duplicate-free child list: no node occupies two
bucket positions, except that the `noscript` slot's occupant (placed there by
the NOSCRIPT case) is also in the `other` list (placed by the fall-through). -/
def Inv (hc : HeadComponents) : Prop :=
  (occ hc).Nodup ∧ ∀ n, hc.noscript = some n → n ∈ hc.other

/-- The statement that `x` occupies no bucket position other than possibly
the `metaCharset` slot.  A charset meta can only ever be registered into that
slot, so this predicate is preserved by every classification step. -/
def onlyCharsetSlot (x : Element) (hc : HeadComponents) : Prop :=
  x ∉ hc.metaOther ∧ x ∉ hc.scriptNonRenderDelayingExtensions ∧
    x ∉ hc.scriptRenderDelayingExtensions ∧ x ∉ hc.linkIcons ∧ x ∉ hc.linkResourceHints ∧
    x ∉ hc.linkStylesheetBeforeAmpCustom ∧ x ∉ hc.other ∧ hc.styleAmpRuntime ≠ some x ∧
    hc.scriptAmpEngine ≠ some x ∧ hc.scriptAmpViewer ≠ some x ∧
    hc.scriptGmailAmpViewer ≠ some x ∧ hc.styleAmpCustom ≠ some x ∧
    hc.linkStylesheetRuntimeCss ≠ some x ∧ hc.styleAmpBoilerplate ≠ some x ∧
    hc.noscript ≠ some x

/-- Sample node: a `<noscript>` element. -/
def elNoscript : Element := ⟨0, "NOSCRIPT", []⟩

/-- Sample node: a `<title>` element (an unrecognized tag for the switch). -/
def elTitle : Element := ⟨1, "TITLE", []⟩

/-- Sample node: a plain `<script>` with no attributes (no `async`, not an
extension), which `registerScript` pushes onto `other` without a guard. -/
def elPlainScript : Element := ⟨2, "SCRIPT", []⟩

/-- Sample node: a first `<meta charset>`. -/
def elMetaCharsetA : Element := ⟨3, "META", [("charset", "utf-8")]⟩

/-- Sample node: a second, distinct `<meta charset>`. -/
def elMetaCharsetB : Element := ⟨4, "META", [("charset", "latin1")]⟩

/-- Sample node: an AMP engine script that also carries
`custom-element="amp-story"`, so the extension rule and the engine URL rule
both match. -/
def elStoryScript : Element :=
  ⟨5, "SCRIPT", [("src", "https://cdn.ampproject.org/v0.js"), ("async", ""),
    ("custom-element", "amp-story")]⟩

/-- Sample node: an external stylesheet link (not the AMP runtime css). -/
def elStylesheetLink : Element :=
  ⟨6, "LINK", [("rel", "stylesheet"), ("href", "https://example.com/a.css")]⟩

/-- Sample node: a `<style amp-custom>` element. -/
def elCustomStyle : Element := ⟨7, "STYLE", [("amp-custom", "")]⟩

/-- Sample node: a `<script async>` with no `src` attribute. -/
def elAsyncNoSrcScript : Element := ⟨8, "SCRIPT", [("async", "")]⟩

/-- Sample node: a `<link>` with no `rel` attribute. -/
def elNoRelLink : Element := ⟨9, "LINK", [("href", "https://example.com/x")]⟩

/-- The bucket an element is routed to by the classification `switch`,
named as data.  `noscript` stands for the NOSCRIPT case, which assigns the
`noscript` slot and falls through to the `other` push; `stylesheetOther`
stands for the stylesheet link that targets `linkStylesheetBeforeAmpCustom`
(kept only while the `styleAmpCustom` slot is empty). -/
inductive Route where
  | metaCharset
  | metaOther
  | rde
  | nrde
  | engine
  | gmail
  | viewer
  | styleRuntime
  | styleCustom
  | styleBoiler
  | runtimeCss
  | stylesheetOther
  | icons
  | hints
  | noscript
  | other
deriving DecidableEq, Repr

/-- The classification decision for one element, read off the `switch` in
`reorderHead` and the four `register` helpers, condition for condition.  The
only state-dependent part of classification (the `styleAmpCustom` emptiness
test for `stylesheetOther`, and the duplicate guards) is not part of the
route; everything else depends on the element alone. -/
def routeOf (x : Element) : Route :=
  if x.tagName = "META" then
    (if hasAttribute x "charset" then Route.metaCharset else Route.metaOther)
  else if x.tagName = "SCRIPT" then
    (if hasAttribute x "custom-element" || hasAttribute x "custom-template" ||
        hasAttribute x "host-service" then
      (if getAttribute x "custom-element" = some "amp-story" ∨
          getAttribute x "custom-element" = some "amp-experiment" ∨
          getAttribute x "custom-element" = some "amp-dynamic-css-classes" then
        Route.rde
      else Route.nrde)
    else if hasAttribute x "async" && strStartsWith (getAttribute x "src")
        "https://cdn.ampproject.org/" &&
        (strEndsWith (getAttribute x "src") "/v0.js" ||
          strEndsWith (getAttribute x "src") "/v0.js.br" ||
          strEndsWith (getAttribute x "src") "/amp4ads-v0.js" ||
          strEndsWith (getAttribute x "src") "/amp4ads-v0.js.br") then
      Route.engine
    else if hasAttribute x "async" && strStartsWith (getAttribute x "src")
        "https://cdn.ampproject.org/v0/amp-viewer-integration-gmail-" &&
        strEndsWith (getAttribute x "src") ".js" then
      Route.gmail
    else if hasAttribute x "async" &&
        (strStartsWith (getAttribute x "src")
          "https://cdn.ampproject.org/v0/amp-viewer-integration-" ||
          (strStartsWith (getAttribute x "src") "https://cdn.ampproject.org/viewer/google/v" &&
            strEndsWith (getAttribute x "src") ".js")) then
      Route.viewer
    else Route.other)
  else if x.tagName = "STYLE" then
    (if hasAttribute x "amp-runtime" then Route.styleRuntime
    else if hasAttribute x "amp-custom" then Route.styleCustom
    else if hasAttribute x "amp-boilerplate" || hasAttribute x "amp4ads-boilerplate" then
      Route.styleBoiler
    else Route.other)
  else if x.tagName = "LINK" then
    (if getAttribute x "rel" = some "stylesheet" then
      (if strStartsWith (getAttribute x "href") "https://cdn.ampproject.org/" &&
          strEndsWith (getAttribute x "href") "/v0.css" then
        Route.runtimeCss
      else Route.stylesheetOther)
    else if getAttribute x "rel" = some "icon" ∨ getAttribute x "rel" = some "icon shortcut" ∨
        getAttribute x "rel" = some "shortcut icon" then
      Route.icons
    else if getAttribute x "rel" = some "dns-prefetch preconnect" then Route.hints
    else Route.other)
  else if x.tagName = "NOSCRIPT" then Route.noscript
  else Route.other

/-! ### Emission machinery -/

theorem appendIfNotNull_eq_appendAll (c : List Element) (o : Option Element) :
    appendIfNotNull c o = appendAll c o.toList := by
  cases o <;> rfl

theorem appendAll_append (c l₁ l₂ : List Element) :
    appendAll c (l₁ ++ l₂) = appendAll (appendAll c l₁) l₂ := by
  simp [appendAll]

theorem repopulate_eq_appendAll (c : List Element) (hc : HeadComponents) :
    repopulate c hc = appendAll c (elemsAll hc) := by
  simp only [repopulate, elemsAll, occ, occA, appendIfNotNull_eq_appendAll, ← appendAll_append,
    List.append_assoc]

theorem mem_appendChild {c : List Element} {e x : Element} :
    x ∈ appendChild c e ↔ x ∈ c ∨ x = e := by
  simp only [appendChild, List.mem_append, List.mem_filter, List.mem_singleton,
    decide_eq_true_eq]
  by_cases hx : x = e <;> simp [hx]

theorem mem_appendAll {c l : List Element} {x : Element} :
    x ∈ appendAll c l ↔ x ∈ c ∨ x ∈ l := by
  induction l generalizing c with
  | nil => simp [appendAll]
  | cons e t ih =>
      have : appendAll c (e :: t) = appendAll (appendChild c e) t := rfl
      rw [this, ih, mem_appendChild]
      simp only [List.mem_cons]
      tauto

theorem nodup_appendChild {c : List Element} (e : Element) (h : c.Nodup) :
    (appendChild c e).Nodup := by
  apply List.Nodup.append (h.filter _) (List.nodup_singleton e)
  intro a ha hb
  rw [List.mem_singleton] at hb
  subst hb
  simp [List.mem_filter] at ha

theorem nodup_appendAll {c : List Element} (l : List Element) (h : c.Nodup) :
    (appendAll c l).Nodup := by
  induction l generalizing c with
  | nil => exact h
  | cons e t ih => exact ih (nodup_appendChild e h)

theorem appendChild_not_mem {c : List Element} {e : Element} (h : e ∉ c) :
    appendChild c e = c ++ [e] := by
  unfold appendChild
  congr 1
  apply List.filter_eq_self.mpr
  intro a ha
  exact decide_eq_true (fun hae => h (hae ▸ ha))

theorem appendAll_not_mem {c l : List Element} (hn : l.Nodup) (hd : ∀ x ∈ l, x ∉ c) :
    appendAll c l = c ++ l := by
  induction l generalizing c with
  | nil => simp [appendAll]
  | cons e t ih =>
      have h1 : appendChild c e = c ++ [e] := appendChild_not_mem (hd e (by simp))
      have h2 : appendAll c (e :: t) = appendAll (c ++ [e]) t := by
        rw [show appendAll c (e :: t) = appendAll (appendChild c e) t from rfl, h1]
      rw [h2, ih hn.of_cons]
      · simp
      · intro x hx
        simp only [List.mem_append, List.mem_singleton]
        rintro (hxc | rfl)
        · exact hd x (by simp [hx]) hxc
        · exact (List.nodup_cons.mp hn).1 hx

theorem filter_ne_of_not_mem {l : List Element} {n : Element} (h : n ∉ l) :
    l.filter (fun c => decide (c ≠ n)) = l := by
  apply List.filter_eq_self.mpr
  intro a ha
  exact decide_eq_true (fun hae => h (hae ▸ ha))

theorem nodup_occ_parts {hc : HeadComponents} (hnd : (occ hc).Nodup) {n : Element}
    (hmem : n ∈ hc.other) :
    n ∉ occA hc ∧ n ∉ hc.styleAmpBoilerplate.toList := by
  have hself : (occA hc ++ hc.other ++ hc.styleAmpBoilerplate.toList).Nodup := hnd
  have hone : (occA hc ++ hc.other).Nodup := hself.of_append_left
  refine ⟨fun hA => (List.disjoint_of_nodup_append hone) hA hmem, fun hb => ?_⟩
  exact (List.disjoint_of_nodup_append hself) (by simp [List.mem_append, hmem]) hb

theorem repopulate_of_inv {hc : HeadComponents} (h : Inv hc) :
    repopulate [] hc = specEmit hc := by
  obtain ⟨hnd, hns⟩ := h
  rw [repopulate_eq_appendAll, elemsAll]
  cases hn : hc.noscript with
  | none =>
      simp only [Option.toList, List.append_nil]
      rw [appendAll_not_mem hnd (by simp)]
      simp [specEmit, hn, occ]
  | some n =>
      have hmem : n ∈ hc.other := hns n hn
      obtain ⟨hA, hB⟩ := nodup_occ_parts hnd hmem
      simp only [Option.toList]
      rw [appendAll_append, appendAll_not_mem hnd (by simp), List.nil_append]
      have hstep : appendAll (occ hc) [n] = appendChild (occ hc) n := rfl
      rw [hstep]
      unfold appendChild
      rw [show occ hc = occA hc ++ hc.other ++ hc.styleAmpBoilerplate.toList from rfl]
      rw [List.filter_append, List.filter_append]
      rw [filter_ne_of_not_mem hA, filter_ne_of_not_mem hB]
      simp [specEmit, hn, List.append_assoc]

/-! ### Classification machinery -/

theorem registerChild_shape (hc : HeadComponents) (e : Element) :
    registerChild hc e = { hc with metaCharset := some e } ∨
    registerChild hc e = hc ∨
    registerChild hc e = { hc with metaOther := hc.metaOther ++ [e] } ∨
    registerChild hc e =
      { hc with scriptRenderDelayingExtensions := hc.scriptRenderDelayingExtensions ++ [e] } ∨
    registerChild hc e =
      { hc with scriptNonRenderDelayingExtensions :=
          hc.scriptNonRenderDelayingExtensions ++ [e] } ∨
    registerChild hc e = { hc with scriptAmpEngine := some e } ∨
    registerChild hc e = { hc with scriptGmailAmpViewer := some e } ∨
    registerChild hc e = { hc with scriptAmpViewer := some e } ∨
    registerChild hc e = { hc with other := hc.other ++ [e] } ∨
    registerChild hc e = { hc with styleAmpRuntime := some e } ∨
    registerChild hc e = { hc with styleAmpCustom := some e } ∨
    registerChild hc e = { hc with styleAmpBoilerplate := some e } ∨
    registerChild hc e = { hc with linkStylesheetRuntimeCss := some e } ∨
    registerChild hc e =
      { hc with linkStylesheetBeforeAmpCustom := hc.linkStylesheetBeforeAmpCustom ++ [e] } ∨
    registerChild hc e = { hc with linkIcons := hc.linkIcons ++ [e] } ∨
    registerChild hc e = { hc with linkResourceHints := hc.linkResourceHints ++ [e] } ∨
    registerChild hc e = { hc with noscript := some e } ∨
    registerChild hc e = { hc with noscript := some e, other := hc.other ++ [e] } := by
  simp only [registerChild, registerMeta, registerScript, registerStyle, registerLink]
  split_ifs
  all_goals repeat first | exact Or.inl rfl | apply Or.inr
  all_goals rfl

theorem le_cons_of_add_eq {M N E : Multiset Element} {e : Element} (h : M + E = N + {e}) :
    M ≤ e ::ₘ N := by
  rw [← Multiset.singleton_add, add_comm, ← h]
  exact Multiset.le_add_right _ _

theorem occ_step_le (hc : HeadComponents) (e : Element) :
    (↑(occ (registerChild hc e)) : Multiset Element) ≤ e ::ₘ (↑(occ hc) : Multiset Element) := by
  rcases registerChild_shape hc e with h|h|h|h|h|h|h|h|h|h|h|h|h|h|h|h|h|h <;> rw [h]
  · exact le_cons_of_add_eq (E := ↑hc.metaCharset.toList) (by
      simp [occ, occA, ← Multiset.coe_add, ← Multiset.cons_coe, ← Multiset.singleton_add]; try abel)
  · exact le_cons_of_add_eq (E := {e}) (by
      simp [occ, occA, ← Multiset.coe_add, ← Multiset.cons_coe, ← Multiset.singleton_add]; try abel)
  · exact le_cons_of_add_eq (E := 0) (by
      simp [occ, occA, ← Multiset.coe_add, ← Multiset.cons_coe, ← Multiset.singleton_add]; try abel)
  · exact le_cons_of_add_eq (E := 0) (by
      simp [occ, occA, ← Multiset.coe_add, ← Multiset.cons_coe, ← Multiset.singleton_add]; try abel)
  · exact le_cons_of_add_eq (E := 0) (by
      simp [occ, occA, ← Multiset.coe_add, ← Multiset.cons_coe, ← Multiset.singleton_add]; try abel)
  · exact le_cons_of_add_eq (E := ↑hc.scriptAmpEngine.toList) (by
      simp [occ, occA, ← Multiset.coe_add, ← Multiset.cons_coe, ← Multiset.singleton_add]; try abel)
  · exact le_cons_of_add_eq (E := ↑hc.scriptGmailAmpViewer.toList) (by
      simp [occ, occA, ← Multiset.coe_add, ← Multiset.cons_coe, ← Multiset.singleton_add]; try abel)
  · exact le_cons_of_add_eq (E := ↑hc.scriptAmpViewer.toList) (by
      simp [occ, occA, ← Multiset.coe_add, ← Multiset.cons_coe, ← Multiset.singleton_add]; try abel)
  · exact le_cons_of_add_eq (E := 0) (by
      simp [occ, occA, ← Multiset.coe_add, ← Multiset.cons_coe, ← Multiset.singleton_add]; try abel)
  · exact le_cons_of_add_eq (E := ↑hc.styleAmpRuntime.toList) (by
      simp [occ, occA, ← Multiset.coe_add, ← Multiset.cons_coe, ← Multiset.singleton_add]; try abel)
  · exact le_cons_of_add_eq (E := ↑hc.styleAmpCustom.toList) (by
      simp [occ, occA, ← Multiset.coe_add, ← Multiset.cons_coe, ← Multiset.singleton_add]; try abel)
  · exact le_cons_of_add_eq (E := ↑hc.styleAmpBoilerplate.toList) (by
      simp [occ, occA, ← Multiset.coe_add, ← Multiset.cons_coe, ← Multiset.singleton_add]; try abel)
  · exact le_cons_of_add_eq (E := ↑hc.linkStylesheetRuntimeCss.toList) (by
      simp [occ, occA, ← Multiset.coe_add, ← Multiset.cons_coe, ← Multiset.singleton_add]; try abel)
  · exact le_cons_of_add_eq (E := 0) (by
      simp [occ, occA, ← Multiset.coe_add, ← Multiset.cons_coe, ← Multiset.singleton_add]; try abel)
  · exact le_cons_of_add_eq (E := 0) (by
      simp [occ, occA, ← Multiset.coe_add, ← Multiset.cons_coe, ← Multiset.singleton_add]; try abel)
  · exact le_cons_of_add_eq (E := 0) (by
      simp [occ, occA, ← Multiset.coe_add, ← Multiset.cons_coe, ← Multiset.singleton_add]; try abel)
  · exact le_cons_of_add_eq (E := {e}) (by
      simp [occ, occA, ← Multiset.coe_add, ← Multiset.cons_coe, ← Multiset.singleton_add]; try abel)
  · exact le_cons_of_add_eq (E := 0) (by
      simp [occ, occA, ← Multiset.coe_add, ← Multiset.cons_coe, ← Multiset.singleton_add]; try abel)

theorem le_cons2_of_add_eq {M N E : Multiset Element} {e : Element}
    (h : M + E = N + ({e} + {e})) : M ≤ e ::ₘ e ::ₘ N := by
  have h2 : N + ({e} + {e}) = e ::ₘ e ::ₘ N := by
    rw [← Multiset.singleton_add, ← Multiset.singleton_add]
    abel
  rw [← h2, ← h]
  exact Multiset.le_add_right _ _

theorem elemsAll_step_le (hc : HeadComponents) (e : Element) :
    (↑(elemsAll (registerChild hc e)) : Multiset Element) ≤
      e ::ₘ e ::ₘ (↑(elemsAll hc) : Multiset Element) := by
  rcases registerChild_shape hc e with h|h|h|h|h|h|h|h|h|h|h|h|h|h|h|h|h|h <;> rw [h]
  · exact le_cons2_of_add_eq (E := ↑hc.metaCharset.toList + {e}) (by
      simp [elemsAll, occ, occA, ← Multiset.coe_add, ← Multiset.cons_coe,
        ← Multiset.singleton_add]; try abel)
  · exact le_cons2_of_add_eq (E := {e} + {e}) (by
      simp [elemsAll, occ, occA, ← Multiset.coe_add, ← Multiset.cons_coe,
        ← Multiset.singleton_add]; try abel)
  · exact le_cons2_of_add_eq (E := {e}) (by
      simp [elemsAll, occ, occA, ← Multiset.coe_add, ← Multiset.cons_coe,
        ← Multiset.singleton_add]; try abel)
  · exact le_cons2_of_add_eq (E := {e}) (by
      simp [elemsAll, occ, occA, ← Multiset.coe_add, ← Multiset.cons_coe,
        ← Multiset.singleton_add]; try abel)
  · exact le_cons2_of_add_eq (E := {e}) (by
      simp [elemsAll, occ, occA, ← Multiset.coe_add, ← Multiset.cons_coe,
        ← Multiset.singleton_add]; try abel)
  · exact le_cons2_of_add_eq (E := ↑hc.scriptAmpEngine.toList + {e}) (by
      simp [elemsAll, occ, occA, ← Multiset.coe_add, ← Multiset.cons_coe,
        ← Multiset.singleton_add]; try abel)
  · exact le_cons2_of_add_eq (E := ↑hc.scriptGmailAmpViewer.toList + {e}) (by
      simp [elemsAll, occ, occA, ← Multiset.coe_add, ← Multiset.cons_coe,
        ← Multiset.singleton_add]; try abel)
  · exact le_cons2_of_add_eq (E := ↑hc.scriptAmpViewer.toList + {e}) (by
      simp [elemsAll, occ, occA, ← Multiset.coe_add, ← Multiset.cons_coe,
        ← Multiset.singleton_add]; try abel)
  · exact le_cons2_of_add_eq (E := {e}) (by
      simp [elemsAll, occ, occA, ← Multiset.coe_add, ← Multiset.cons_coe,
        ← Multiset.singleton_add]; try abel)
  · exact le_cons2_of_add_eq (E := ↑hc.styleAmpRuntime.toList + {e}) (by
      simp [elemsAll, occ, occA, ← Multiset.coe_add, ← Multiset.cons_coe,
        ← Multiset.singleton_add]; try abel)
  · exact le_cons2_of_add_eq (E := ↑hc.styleAmpCustom.toList + {e}) (by
      simp [elemsAll, occ, occA, ← Multiset.coe_add, ← Multiset.cons_coe,
        ← Multiset.singleton_add]; try abel)
  · exact le_cons2_of_add_eq (E := ↑hc.styleAmpBoilerplate.toList + {e}) (by
      simp [elemsAll, occ, occA, ← Multiset.coe_add, ← Multiset.cons_coe,
        ← Multiset.singleton_add]; try abel)
  · exact le_cons2_of_add_eq (E := ↑hc.linkStylesheetRuntimeCss.toList + {e}) (by
      simp [elemsAll, occ, occA, ← Multiset.coe_add, ← Multiset.cons_coe,
        ← Multiset.singleton_add]; try abel)
  · exact le_cons2_of_add_eq (E := {e}) (by
      simp [elemsAll, occ, occA, ← Multiset.coe_add, ← Multiset.cons_coe,
        ← Multiset.singleton_add]; try abel)
  · exact le_cons2_of_add_eq (E := {e}) (by
      simp [elemsAll, occ, occA, ← Multiset.coe_add, ← Multiset.cons_coe,
        ← Multiset.singleton_add]; try abel)
  · exact le_cons2_of_add_eq (E := {e}) (by
      simp [elemsAll, occ, occA, ← Multiset.coe_add, ← Multiset.cons_coe,
        ← Multiset.singleton_add]; try abel)
  · exact le_cons2_of_add_eq (E := ↑hc.noscript.toList + {e}) (by
      simp [elemsAll, occ, occA, ← Multiset.coe_add, ← Multiset.cons_coe,
        ← Multiset.singleton_add]; try abel)
  · exact le_cons2_of_add_eq (E := ↑hc.noscript.toList) (by
      simp [elemsAll, occ, occA, ← Multiset.coe_add, ← Multiset.cons_coe,
        ← Multiset.singleton_add]; try abel)

theorem mem_elemsAll_step {hc : HeadComponents} {e x : Element}
    (h : x ∈ elemsAll (registerChild hc e)) : x ∈ elemsAll hc ∨ x = e := by
  have h2 := Multiset.mem_of_le (elemsAll_step_le hc e) (Multiset.mem_coe.mpr h)
  rw [Multiset.mem_cons, Multiset.mem_cons, Multiset.mem_coe] at h2
  rcases h2 with h2 | h2 | h2
  · exact Or.inr h2
  · exact Or.inr h2
  · exact Or.inl h2

theorem noscript_mem_other_step {hc : HeadComponents} (e : Element)
    (hns : ∀ n, hc.noscript = some n → n ∈ hc.other) :
    ∀ n, (registerChild hc e).noscript = some n → n ∈ (registerChild hc e).other := by
  intro n
  simp only [registerChild, registerMeta, registerScript, registerStyle, registerLink]
  split_ifs <;> intro hn <;> simp_all

theorem inv_step {hc : HeadComponents} {e : Element} (hI : Inv hc) (he : e ∉ elemsAll hc) :
    Inv (registerChild hc e) := by
  obtain ⟨hnd, hns⟩ := hI
  constructor
  · have hocc : e ∉ occ hc := fun hx => he (by simp [elemsAll, hx])
    have hcons : Multiset.Nodup (e ::ₘ (↑(occ hc) : Multiset Element)) := by
      rw [Multiset.nodup_cons]
      exact ⟨by simpa using hocc, by simpa using hnd⟩
    have := Multiset.nodup_of_le (occ_step_le hc e) hcons
    simpa using this
  · exact noscript_mem_other_step e hns

theorem inv_fold : ∀ (h : List Element) (hc : HeadComponents), Inv hc → h.Nodup →
    (∀ x ∈ h, x ∉ elemsAll hc) → Inv (registerAll hc h) := by
  intro h
  induction h with
  | nil => intro hc hI _ _; exact hI
  | cons e tl ih =>
      intro hc hI hnd hd
      have h1 : Inv (registerChild hc e) := inv_step hI (hd e (by simp))
      refine ih _ h1 hnd.of_cons ?_
      intro x hx hmem
      rcases mem_elemsAll_step hmem with h2 | h2
      · exact hd x (by simp [hx]) h2
      · exact (List.nodup_cons.mp hnd).1 (h2 ▸ hx)

theorem inv_initComponents : Inv initComponents := by
  constructor
  · simp [occ, occA, initComponents]
  · intro n hn
    simp [initComponents] at hn

theorem not_mem_elemsAll_fold : ∀ (h : List Element) (hc : HeadComponents) (x : Element),
    x ∉ elemsAll hc → x ∉ h → x ∉ elemsAll (registerAll hc h) := by
  intro h
  induction h with
  | nil => intro hc x hx _; exact hx
  | cons e tl ih =>
      intro hc x hx hh hmem
      have hxe : x ≠ e := fun hxe => hh (by simp [hxe])
      have hxtl : x ∉ tl := fun hxtl => hh (by simp [hxtl])
      refine ih (registerChild hc e) x ?_ hxtl hmem
      intro h2
      rcases mem_elemsAll_step h2 with h3 | h3
      · exact hx h3
      · exact hxe h3

theorem list_step_cases (hc : HeadComponents) (e : Element) :
    ((registerChild hc e).metaOther = hc.metaOther ∨
      (registerChild hc e).metaOther = hc.metaOther ++ [e]) ∧
    ((registerChild hc e).scriptRenderDelayingExtensions = hc.scriptRenderDelayingExtensions ∨
      (registerChild hc e).scriptRenderDelayingExtensions =
        hc.scriptRenderDelayingExtensions ++ [e]) ∧
    ((registerChild hc e).scriptNonRenderDelayingExtensions =
        hc.scriptNonRenderDelayingExtensions ∨
      (registerChild hc e).scriptNonRenderDelayingExtensions =
        hc.scriptNonRenderDelayingExtensions ++ [e]) ∧
    ((registerChild hc e).linkIcons = hc.linkIcons ∨
      (registerChild hc e).linkIcons = hc.linkIcons ++ [e]) ∧
    ((registerChild hc e).linkResourceHints = hc.linkResourceHints ∨
      (registerChild hc e).linkResourceHints = hc.linkResourceHints ++ [e]) ∧
    ((registerChild hc e).linkStylesheetBeforeAmpCustom = hc.linkStylesheetBeforeAmpCustom ∨
      (registerChild hc e).linkStylesheetBeforeAmpCustom =
        hc.linkStylesheetBeforeAmpCustom ++ [e]) ∧
    ((registerChild hc e).other = hc.other ∨ (registerChild hc e).other = hc.other ++ [e]) := by
  rcases registerChild_shape hc e with h|h|h|h|h|h|h|h|h|h|h|h|h|h|h|h|h|h <;> rw [h] <;> simp

theorem list_fold_append {L : HeadComponents → List Element}
    (hstep : ∀ hc e, L (registerChild hc e) = L hc ∨ L (registerChild hc e) = L hc ++ [e]) :
    ∀ (h : List Element) (hc : HeadComponents),
      ∃ t, L (registerAll hc h) = L hc ++ t ∧ t.Sublist h := by
  intro h
  induction h with
  | nil => intro hc; exact ⟨[], by simp [registerAll], List.nil_sublist _⟩
  | cons e tl ih =>
      intro hc
      obtain ⟨t, ht, hs⟩ := ih (registerChild hc e)
      rcases hstep hc e with h1 | h1
      · exact ⟨t, by rw [show registerAll hc (e :: tl) = registerAll (registerChild hc e) tl
          from rfl, ht, h1], hs.trans (List.sublist_cons_self e tl)⟩
      · refine ⟨e :: t, ?_, List.Sublist.cons₂ e hs⟩
        rw [show registerAll hc (e :: tl) = registerAll (registerChild hc e) tl from rfl, ht, h1]
        simp

theorem noscript_stable {hc : HeadComponents} {e : Element} (h : e.tagName ≠ "NOSCRIPT") :
    (registerChild hc e).noscript = hc.noscript := by
  simp only [registerChild, registerMeta, registerScript, registerStyle, registerLink]
  split_ifs <;> simp_all

theorem noscript_fold_stable : ∀ (h : List Element) (hc : HeadComponents),
    (∀ x ∈ h, x.tagName ≠ "NOSCRIPT") → (registerAll hc h).noscript = hc.noscript := by
  intro h
  induction h with
  | nil => intro hc _; rfl
  | cons e tl ih =>
      intro hc hd
      rw [show registerAll hc (e :: tl) = registerAll (registerChild hc e) tl from rfl,
        ih _ (fun x hx => hd x (by simp [hx])), noscript_stable (hd e (by simp))]

theorem metaCharset_stable {hc : HeadComponents} {e : Element}
    (h : e.tagName = "META" → hasAttribute e "charset" = false) :
    (registerChild hc e).metaCharset = hc.metaCharset := by
  simp only [registerChild, registerMeta, registerScript, registerStyle, registerLink]
  split_ifs <;> simp_all

theorem metaCharset_fold_stable : ∀ (h : List Element) (hc : HeadComponents),
    (∀ x ∈ h, x.tagName = "META" → hasAttribute x "charset" = false) →
    (registerAll hc h).metaCharset = hc.metaCharset := by
  intro h
  induction h with
  | nil => intro hc _; rfl
  | cons e tl ih =>
      intro hc hd
      rw [show registerAll hc (e :: tl) = registerAll (registerChild hc e) tl from rfl,
        ih _ (fun x hx => hd x (by simp [hx])), metaCharset_stable (hd e (by simp))]

theorem registerChild_charsetMeta {hc : HeadComponents} {e : Element}
    (h1 : e.tagName = "META") (h2 : hasAttribute e "charset" = true) :
    registerChild hc e = { hc with metaCharset := some e } := by
  simp [registerChild, registerMeta, h1, h2]

theorem registerChild_noscript {hc : HeadComponents} {e : Element}
    (h1 : e.tagName = "NOSCRIPT") (h2 : e ∉ hc.other) :
    registerChild hc e = { hc with other := hc.other ++ [e], noscript := some e } := by
  simp [registerChild, h1, h2]

theorem onlyCharsetSlot_step {x : Element} {hc : HeadComponents} (e : Element)
    (hx1 : x.tagName = "META") (hx2 : hasAttribute x "charset" = true)
    (h : onlyCharsetSlot x hc) : onlyCharsetSlot x (registerChild hc e) := by
  by_cases hxe : e = x
  · subst hxe
    rw [registerChild_charsetMeta hx1 hx2]
    simpa [onlyCharsetSlot] using h
  · have hxe' : x ≠ e := fun hx => hxe hx.symm
    rcases registerChild_shape hc e with h'|h'|h'|h'|h'|h'|h'|h'|h'|h'|h'|h'|h'|h'|h'|h'|h'|h' <;>
      rw [h'] <;> simp only [onlyCharsetSlot] at h ⊢ <;>
      simp_all [List.mem_append, Option.some_inj]

theorem onlyCharsetSlot_fold {x : Element} (hx1 : x.tagName = "META")
    (hx2 : hasAttribute x "charset" = true) : ∀ (h : List Element) (hc : HeadComponents),
    onlyCharsetSlot x hc → onlyCharsetSlot x (registerAll hc h) := by
  intro h
  induction h with
  | nil => intro hc hP; exact hP
  | cons e tl ih =>
      intro hc hP
      exact ih _ (onlyCharsetSlot_step e hx1 hx2 hP)

theorem onlyCharsetSlot_init (x : Element) : onlyCharsetSlot x initComponents := by
  simp [onlyCharsetSlot, initComponents]

theorem mem_repopulate {hc : HeadComponents} {x : Element} :
    x ∈ repopulate [] hc ↔ x ∈ elemsAll hc := by
  rw [repopulate_eq_appendAll, mem_appendAll]
  simp

theorem nodup_repopulate (hc : HeadComponents) : (repopulate [] hc).Nodup := by
  rw [repopulate_eq_appendAll]
  exact nodup_appendAll _ List.nodup_nil

theorem registerAll_append (hc : HeadComponents) (l₁ l₂ : List Element) :
    registerAll hc (l₁ ++ l₂) = registerAll (registerAll hc l₁) l₂ := by
  simp [registerAll]

theorem mem_elemsAll_iff {hc : HeadComponents} {x : Element} : x ∈ elemsAll hc ↔
    hc.metaCharset = some x ∨ hc.linkStylesheetRuntimeCss = some x ∨
    hc.styleAmpRuntime = some x ∨ x ∈ hc.metaOther ∨ hc.scriptAmpEngine = some x ∨
    hc.scriptAmpViewer = some x ∨ hc.scriptGmailAmpViewer = some x ∨
    x ∈ hc.scriptRenderDelayingExtensions ∨ x ∈ hc.scriptNonRenderDelayingExtensions ∨
    x ∈ hc.linkIcons ∨ x ∈ hc.linkResourceHints ∨ x ∈ hc.linkStylesheetBeforeAmpCustom ∨
    hc.styleAmpCustom = some x ∨ x ∈ hc.other ∨ hc.styleAmpBoilerplate = some x ∨
    hc.noscript = some x := by
  simp [elemsAll, occ, occA, or_assoc, Option.mem_toList, Option.mem_def]

theorem elemsAll_init : elemsAll initComponents = [] := by
  simp [elemsAll, occ, occA, initComponents]

theorem registerChild_link_stylesheet_push {hc : HeadComponents} {e : Element}
    (he1 : e.tagName = "LINK") (he2 : getAttribute e "rel" = some "stylesheet")
    (he3 : (strStartsWith (getAttribute e "href") "https://cdn.ampproject.org/" &&
      strEndsWith (getAttribute e "href") "/v0.css") = false)
    (hs : hc.styleAmpCustom = none) :
    registerChild hc e =
      { hc with linkStylesheetBeforeAmpCustom := hc.linkStylesheetBeforeAmpCustom ++ [e] } := by
  simp [registerChild, registerLink, he1, he2, he3, hs]

theorem registerChild_link_stylesheet_drop {hc : HeadComponents} {e : Element}
    (he1 : e.tagName = "LINK") (he2 : getAttribute e "rel" = some "stylesheet")
    (he3 : (strStartsWith (getAttribute e "href") "https://cdn.ampproject.org/" &&
      strEndsWith (getAttribute e "href") "/v0.css") = false)
    (hs : hc.styleAmpCustom ≠ none) :
    registerChild hc e = hc := by
  simp [registerChild, registerLink, he1, he2, he3, hs]

theorem metaOther_fold (h : List Element) (hc : HeadComponents) :
    ∃ t, (registerAll hc h).metaOther = hc.metaOther ++ t ∧ t.Sublist h :=
  list_fold_append (fun hc e => (list_step_cases hc e).1) h hc

theorem rde_fold (h : List Element) (hc : HeadComponents) :
    ∃ t, (registerAll hc h).scriptRenderDelayingExtensions =
      hc.scriptRenderDelayingExtensions ++ t ∧ t.Sublist h :=
  list_fold_append (fun hc e => (list_step_cases hc e).2.1) h hc

theorem nrde_fold (h : List Element) (hc : HeadComponents) :
    ∃ t, (registerAll hc h).scriptNonRenderDelayingExtensions =
      hc.scriptNonRenderDelayingExtensions ++ t ∧ t.Sublist h :=
  list_fold_append (fun hc e => (list_step_cases hc e).2.2.1) h hc

theorem linkIcons_fold (h : List Element) (hc : HeadComponents) :
    ∃ t, (registerAll hc h).linkIcons = hc.linkIcons ++ t ∧ t.Sublist h :=
  list_fold_append (fun hc e => (list_step_cases hc e).2.2.2.1) h hc

theorem linkResourceHints_fold (h : List Element) (hc : HeadComponents) :
    ∃ t, (registerAll hc h).linkResourceHints = hc.linkResourceHints ++ t ∧ t.Sublist h :=
  list_fold_append (fun hc e => (list_step_cases hc e).2.2.2.2.1) h hc

theorem linkStylesheetBeforeAmpCustom_fold (h : List Element) (hc : HeadComponents) :
    ∃ t, (registerAll hc h).linkStylesheetBeforeAmpCustom =
      hc.linkStylesheetBeforeAmpCustom ++ t ∧ t.Sublist h :=
  list_fold_append (fun hc e => (list_step_cases hc e).2.2.2.2.2.1) h hc

theorem other_fold (h : List Element) (hc : HeadComponents) :
    ∃ t, (registerAll hc h).other = hc.other ++ t ∧ t.Sublist h :=
  list_fold_append (fun hc e => (list_step_cases hc e).2.2.2.2.2.2) h hc

theorem inv_registerAll_init {h : List Element} (hnd : h.Nodup) :
    Inv (registerAll initComponents h) := by
  refine inv_fold h initComponents inv_initComponents hnd ?_
  intro x _
  rw [elemsAll_init]
  exact List.not_mem_nil x

theorem reorderHead_ok (hc : HeadComponents) (h : List Element) :
    reorderHead hc (some h) = Except.ok (registerAll hc h, repopulate [] (registerAll hc h)) :=
  rfl

theorem mem_elemsAll_of_other {hc : HeadComponents} {x : Element} (h : x ∈ hc.other) :
    x ∈ elemsAll hc := by
  simp [elemsAll, occ, occA, h]

theorem mem_elemsAll_of_noscript {hc : HeadComponents} {x : Element} (h : hc.noscript = some x) :
    x ∈ elemsAll hc := by
  simp [elemsAll, occ, occA, h]

theorem mem_elemsAll_of_linkSBAC {hc : HeadComponents} {x : Element}
    (h : x ∈ hc.linkStylesheetBeforeAmpCustom) : x ∈ elemsAll hc := by
  simp [elemsAll, occ, occA, h]

theorem specEmit_getLast {hc : HeadComponents} {n : Element} (h : hc.noscript = some n) :
    (specEmit hc).getLast? = some n := by
  rw [show specEmit hc = (occA hc ++
      (match hc.noscript with
       | some n => hc.other.filter (fun c => decide (c ≠ n))
       | none => hc.other) ++ hc.styleAmpBoilerplate.toList) ++ hc.noscript.toList from by
    simp [specEmit, List.append_assoc], h]
  exact List.getLast?_concat _

/-! ### Claims -/

/-- C3: the claim says a null head is a no-op returned unchanged without any
fault.  The code guards only the classification loop with `head != null` and
then executes `head.innerHTML = ''` unconditionally, so a null head raises a
null-dereference fault (`TypeError`), modelled as `Except.error ()`. -/
theorem c3_null_head_fault : ∀ hc : HeadComponents, reorderHead hc none = Except.error () :=
  fun _ => rfl

/-- C6: a SCRIPT carrying any of `custom-element`, `custom-template`,
`host-service` is classified by the extension rule before any URL rule is
consulted (the theorem places no constraint on `async` or `src`): it lands in
`scriptRenderDelayingExtensions` exactly when its `custom-element` value is
`amp-story`, `amp-experiment` or `amp-dynamic-css-classes`, and in
`scriptNonRenderDelayingExtensions` otherwise. -/
theorem c6_extension_script_priority (hc : HeadComponents) (e : Element)
    (h1 : e.tagName = "SCRIPT")
    (h2 : (hasAttribute e "custom-element" || hasAttribute e "custom-template" ||
      hasAttribute e "host-service") = true) :
    ((getAttribute e "custom-element" = some "amp-story" ∨
        getAttribute e "custom-element" = some "amp-experiment" ∨
        getAttribute e "custom-element" = some "amp-dynamic-css-classes") →
      registerChild hc e =
        { hc with scriptRenderDelayingExtensions := hc.scriptRenderDelayingExtensions ++ [e] }) ∧
    (¬(getAttribute e "custom-element" = some "amp-story" ∨
        getAttribute e "custom-element" = some "amp-experiment" ∨
        getAttribute e "custom-element" = some "amp-dynamic-css-classes") →
      registerChild hc e =
        { hc with scriptNonRenderDelayingExtensions :=
            hc.scriptNonRenderDelayingExtensions ++ [e] }) := by
  constructor <;> intro h3 <;> simp [registerChild, registerScript, h1, h2, h3]

/-- C6 witness: a script with `async`, the AMP engine `src`, and
`custom-element="amp-story"` goes to the render-delaying extension list. -/
theorem c6_extension_script_priority_witness :
    registerChild initComponents elStoryScript =
      { initComponents with scriptRenderDelayingExtensions :=
          initComponents.scriptRenderDelayingExtensions ++ [elStoryScript] } :=
  (c6_extension_script_priority initComponents elStoryScript (by decide) (by decide)).1
    (by decide)

/-- C10: classification of a SCRIPT with `async` but no `src`, and of a LINK
with no `rel`, completes without any fault and lands in the `other` bucket:
the absent attribute is treated as non-matching by every rule. -/
theorem c10_absent_attribute_defensive (hc : HeadComponents) (e f : Element)
    (he1 : e.tagName = "SCRIPT") (he2 : hasAttribute e "async" = true)
    (he3 : getAttribute e "src" = none)
    (he4 : hasAttribute e "custom-element" = false)
    (he5 : hasAttribute e "custom-template" = false)
    (he6 : hasAttribute e "host-service" = false)
    (hf1 : f.tagName = "LINK") (hf2 : getAttribute f "rel" = none) :
    registerChild hc e = { hc with other := hc.other ++ [e] } ∧
    registerChild hc f = { hc with other := hc.other ++ [f] } := by
  constructor
  · simp [registerChild, registerScript, he1, he2, he3, he4, he5, he6, strStartsWith]
  · simp [registerChild, registerLink, hf1, hf2]

/-- C10 witness: a concrete `<script async>` without `src` and a concrete
`<link>` without `rel` both degrade into the `other` bucket. -/
theorem c10_absent_attribute_defensive_witness :
    registerChild initComponents elAsyncNoSrcScript =
      { initComponents with other := initComponents.other ++ [elAsyncNoSrcScript] } ∧
    registerChild initComponents elNoRelLink =
      { initComponents with other := initComponents.other ++ [elNoRelLink] } :=
  c10_absent_attribute_defensive initComponents elAsyncNoSrcScript elNoRelLink (by decide)
    (by decide) (by decide) (by decide) (by decide) (by decide) (by decide) (by decide)

/-- C8 counterexample: the outcome of a reorderHead call does not depend only
on that call's input head.  The same input (an empty head) produces `[]` on a
fresh transformer but `[elMetaCharsetA]` on a transformer whose registry was
populated by an earlier call, because the registry is built in the
constructor and never reset inside `reorderHead`. -/
theorem c8_registry_fresh_counterexample :
    reorderHead initComponents (some [elMetaCharsetA]) =
      Except.ok ({ initComponents with metaCharset := some elMetaCharsetA },
        [elMetaCharsetA]) ∧
    reorderHead { initComponents with metaCharset := some elMetaCharsetA } (some []) =
      Except.ok ({ initComponents with metaCharset := some elMetaCharsetA },
        [elMetaCharsetA]) ∧
    reorderHead initComponents (some []) = Except.ok (initComponents, []) ∧
    ([elMetaCharsetA] : List Element) ≠ ([] : List Element) :=
  ⟨rfl, rfl, rfl, by decide⟩

/-- C8 amended: the registry is built once per transformer instance, in the
constructor, and persists across `reorderHead` calls: after a call on a head
holding one charset meta, a second call on an empty head re-emits that meta
from the persisted `metaCharset` slot. -/
theorem c8_registry_persists (e : Element) (h1 : e.tagName = "META")
    (h2 : hasAttribute e "charset" = true) :
    reorderHead initComponents (some [e]) =
      Except.ok ({ initComponents with metaCharset := some e }, [e]) ∧
    reorderHead { initComponents with metaCharset := some e } (some []) =
      Except.ok ({ initComponents with metaCharset := some e }, [e]) := by
  constructor
  · rw [reorderHead_ok,
      show registerAll initComponents [e] = registerChild initComponents e from rfl,
      registerChild_charsetMeta h1 h2]
    rfl
  · rfl

/-- C8 amended witness: instantiated at the sample charset meta. -/
theorem c8_registry_persists_witness :
    reorderHead initComponents (some [elMetaCharsetA]) =
      Except.ok ({ initComponents with metaCharset := some elMetaCharsetA },
        [elMetaCharsetA]) ∧
    reorderHead { initComponents with metaCharset := some elMetaCharsetA } (some []) =
      Except.ok ({ initComponents with metaCharset := some elMetaCharsetA },
        [elMetaCharsetA]) :=
  c8_registry_persists elMetaCharsetA (by decide) (by decide)

/-- C2: reorderHead is not idempotent on the same transformer instance.  A
head `[plain script, title]` reorders to itself, but a second call on the
same instance pushes the script onto the persisted `other` bucket again
(`registerScript` has no duplicate guard), and the final re-append of the
duplicate relocates the script behind the title: the second call returns
`[title, script]`. -/
theorem c2_not_idempotent_same_instance :
    reorderHead initComponents (some [elPlainScript, elTitle]) =
      Except.ok ({ initComponents with other := [elPlainScript, elTitle] },
        [elPlainScript, elTitle]) ∧
    reorderHead { initComponents with other := [elPlainScript, elTitle] }
        (some [elPlainScript, elTitle]) =
      Except.ok ({ initComponents with other := [elPlainScript, elTitle, elPlainScript] },
        [elTitle, elPlainScript]) ∧
    ([elTitle, elPlainScript] : List Element) ≠ [elPlainScript, elTitle] :=
  ⟨rfl, rfl, by decide⟩

/-- C4 counterexample: with two charset metas in document order the claim
says the first occupies the slot and appears in the output while the second
is dropped; the code overwrites the slot unconditionally, so the output holds
only the second one. -/
theorem c4_first_charset_meta_counterexample :
    reorderHead initComponents (some [elMetaCharsetA, elMetaCharsetB]) =
      Except.ok ({ initComponents with metaCharset := some elMetaCharsetB },
        [elMetaCharsetB]) ∧
    elMetaCharsetA ∉ ([elMetaCharsetB] : List Element) :=
  ⟨rfl, by decide⟩

/-- C4 amended: for an input containing two or more charset metas, the LAST
one in document order occupies the `metaCharset` slot and appears in the
output, and every earlier one is silently dropped (assigned nowhere, absent
from the output). -/
theorem c4_last_charset_meta_wins (h1 h2 : List Element) (m : Element)
    (hm1 : m.tagName = "META") (hm2 : hasAttribute m "charset" = true)
    (hnd : (h1 ++ m :: h2).Nodup)
    (hafter : ∀ x ∈ h2, x.tagName = "META" → hasAttribute x "charset" = false) :
    ∃ hcF out, reorderHead initComponents (some (h1 ++ m :: h2)) = Except.ok (hcF, out) ∧
      hcF.metaCharset = some m ∧ m ∈ out ∧
      ∀ x ∈ h1, x.tagName = "META" → hasAttribute x "charset" = true → x ∉ out := by
  have hsplit : registerAll initComponents (h1 ++ m :: h2) =
      registerAll (registerChild (registerAll initComponents h1) m) h2 := by
    rw [show h1 ++ m :: h2 = (h1 ++ [m]) ++ h2 from by simp, registerAll_append,
      registerAll_append]
    rfl
  have hslot : (registerAll initComponents (h1 ++ m :: h2)).metaCharset = some m := by
    rw [hsplit, metaCharset_fold_stable h2 _ hafter, registerChild_charsetMeta hm1 hm2]
  refine ⟨_, _, reorderHead_ok _ _, hslot, ?_, ?_⟩
  · rw [mem_repopulate, mem_elemsAll_iff]
    exact Or.inl hslot
  · intro x hx hx1 hx2 hmem
    have hxm : x ≠ m := by
      intro hxe
      subst hxe
      exact (List.disjoint_of_nodup_append hnd) hx (by simp)
    have hP : onlyCharsetSlot x (registerAll initComponents (h1 ++ m :: h2)) :=
      onlyCharsetSlot_fold hx1 hx2 _ _ (onlyCharsetSlot_init x)
    rw [mem_repopulate, mem_elemsAll_iff] at hmem
    obtain ⟨p1, p2, p3, p4, p5, p6, p7, p8, p9, p10, p11, p12, p13, p14, p15⟩ := hP
    rcases hmem with hq|hq|hq|hq|hq|hq|hq|hq|hq|hq|hq|hq|hq|hq|hq|hq
    · exact hxm (Option.some_inj.mp (hslot.symm.trans hq)).symm
    · exact p13 hq
    · exact p8 hq
    · exact p1 hq
    · exact p9 hq
    · exact p10 hq
    · exact p11 hq
    · exact p3 hq
    · exact p2 hq
    · exact p4 hq
    · exact p5 hq
    · exact p6 hq
    · exact p12 hq
    · exact p7 hq
    · exact p14 hq
    · exact p15 hq

/-- C4 amended witness: two concrete charset metas; the later one wins the
slot and is the only one emitted. -/
theorem c4_last_charset_meta_wins_witness :
    ∃ hcF out, reorderHead initComponents
        (some ([elMetaCharsetA] ++ elMetaCharsetB :: ([] : List Element))) =
      Except.ok (hcF, out) ∧
      hcF.metaCharset = some elMetaCharsetB ∧ elMetaCharsetB ∈ out ∧
      ∀ x ∈ [elMetaCharsetA], x.tagName = "META" → hasAttribute x "charset" = true →
        x ∉ out :=
  c4_last_charset_meta_wins [elMetaCharsetA] [] elMetaCharsetB (by decide) (by decide)
    (by decide) (by decide)

/-- C7 counterexample: classification does place the NOSCRIPT child in both
the `noscript` slot and the `other` list, but the emitted output contains it
exactly once, at the final (step 16) position — not also at the `other`
position (step 14): the final `appendChild` relocates the already-attached
node, so the head `[noscript, title]` comes out as `[title, noscript]` with
the noscript counted once. -/
theorem c7_noscript_counterexample :
    reorderHead initComponents (some [elNoscript, elTitle]) =
      Except.ok
        ({ initComponents with other := [elNoscript, elTitle], noscript := some elNoscript },
          [elTitle, elNoscript]) ∧
    List.count elNoscript [elTitle, elNoscript] = 1 ∧
    ([elTitle, elNoscript] : List Element).getLast? = some elNoscript :=
  ⟨rfl, by decide, by decide⟩

/-- C7 amended: a NOSCRIPT child is assigned to the `noscript` slot (the last
one winning) AND, by the missing `break`, appended to the `other` list; at
emission the element is appended at the `other` position and then re-appended
at the noscript position, which in the DOM relocates it, so it appears in the
output exactly once, as the final child (step 16). -/
theorem c7_noscript_slot_and_fallthrough (h1 h2 : List Element) (e : Element)
    (he : e.tagName = "NOSCRIPT") (hnd : (h1 ++ e :: h2).Nodup)
    (hafter : ∀ x ∈ h2, x.tagName ≠ "NOSCRIPT") :
    ∃ hcF out, reorderHead initComponents (some (h1 ++ e :: h2)) = Except.ok (hcF, out) ∧
      hcF.noscript = some e ∧ e ∈ hcF.other ∧ out.getLast? = some e ∧
      List.count e out = 1 := by
  have heh1 : e ∉ h1 := fun hh => (List.disjoint_of_nodup_append hnd) hh (by simp)
  have hfresh : e ∉ elemsAll (registerAll initComponents h1) :=
    not_mem_elemsAll_fold h1 initComponents e
      (by rw [elemsAll_init]; exact List.not_mem_nil e) heh1
  have hother : e ∉ (registerAll initComponents h1).other :=
    fun hh => hfresh (mem_elemsAll_of_other hh)
  have hsplit : registerAll initComponents (h1 ++ e :: h2) =
      registerAll (registerChild (registerAll initComponents h1) e) h2 := by
    rw [show h1 ++ e :: h2 = (h1 ++ [e]) ++ h2 from by simp, registerAll_append,
      registerAll_append]
    rfl
  have hstep : registerChild (registerAll initComponents h1) e =
      { registerAll initComponents h1 with
        other := (registerAll initComponents h1).other ++ [e], noscript := some e } :=
    registerChild_noscript he hother
  have hns : (registerAll initComponents (h1 ++ e :: h2)).noscript = some e := by
    rw [hsplit, noscript_fold_stable h2 _ hafter, hstep]
  have hoth : e ∈ (registerAll initComponents (h1 ++ e :: h2)).other := by
    rw [hsplit]
    obtain ⟨t, ht, _⟩ := other_fold h2 (registerChild (registerAll initComponents h1) e)
    rw [ht, hstep]
    simp
  have hInv : Inv (registerAll initComponents (h1 ++ e :: h2)) := inv_registerAll_init hnd
  refine ⟨_, _, reorderHead_ok _ _, hns, hoth, ?_, ?_⟩
  · rw [repopulate_of_inv hInv]
    exact specEmit_getLast hns
  · exact List.count_eq_one_of_mem (nodup_repopulate _)
      (mem_repopulate.mpr (mem_elemsAll_of_noscript hns))

/-- C7 amended witness: the concrete head `[noscript, title]`. -/
theorem c7_noscript_slot_and_fallthrough_witness :
    ∃ hcF out, reorderHead initComponents
        (some (([] : List Element) ++ elNoscript :: [elTitle])) = Except.ok (hcF, out) ∧
      hcF.noscript = some elNoscript ∧ elNoscript ∈ hcF.other ∧
      out.getLast? = some elNoscript ∧ List.count elNoscript out = 1 :=
  c7_noscript_slot_and_fallthrough [] [elTitle] elNoscript (by decide) (by decide) (by decide)

/-- C9 counterexample: the pushes in `registerScript` (and the other
`register` helpers) carry no duplicate guard, and the registry persists
across calls, so after a second call on the same instance the `other` bucket
holds the same script node twice. -/
theorem c9_duplicate_in_other_counterexample :
    reorderHead initComponents (some [elPlainScript, elTitle]) =
      Except.ok ({ initComponents with other := [elPlainScript, elTitle] },
        [elPlainScript, elTitle]) ∧
    reorderHead { initComponents with other := [elPlainScript, elTitle] }
        (some [elPlainScript, elTitle]) =
      Except.ok ({ initComponents with other := [elPlainScript, elTitle, elPlainScript] },
        [elTitle, elPlainScript]) ∧
    List.count elPlainScript [elPlainScript, elTitle, elPlainScript] = 2 :=
  ⟨rfl, rfl, by decide⟩

/-- C9 amended: within a single `reorderHead` call on a fresh transformer
over a duplicate-free child list, every ordered-list bucket is duplicate-free
(each bucket is a sublist of the input); across calls on the same instance
the unguarded pushes can duplicate a node. -/
theorem c9_single_call_buckets_nodup (h : List Element) (hnd : h.Nodup) :
    ∃ hcF out, reorderHead initComponents (some h) = Except.ok (hcF, out) ∧
      hcF.metaOther.Nodup ∧ hcF.scriptRenderDelayingExtensions.Nodup ∧
      hcF.scriptNonRenderDelayingExtensions.Nodup ∧ hcF.linkIcons.Nodup ∧
      hcF.linkResourceHints.Nodup ∧ hcF.linkStylesheetBeforeAmpCustom.Nodup ∧
      hcF.other.Nodup := by
  refine ⟨_, _, reorderHead_ok _ _, ?_, ?_, ?_, ?_, ?_, ?_, ?_⟩
  · obtain ⟨t, ht, hs⟩ := metaOther_fold h initComponents
    rw [ht]
    simpa [initComponents] using List.Nodup.sublist hs hnd
  · obtain ⟨t, ht, hs⟩ := rde_fold h initComponents
    rw [ht]
    simpa [initComponents] using List.Nodup.sublist hs hnd
  · obtain ⟨t, ht, hs⟩ := nrde_fold h initComponents
    rw [ht]
    simpa [initComponents] using List.Nodup.sublist hs hnd
  · obtain ⟨t, ht, hs⟩ := linkIcons_fold h initComponents
    rw [ht]
    simpa [initComponents] using List.Nodup.sublist hs hnd
  · obtain ⟨t, ht, hs⟩ := linkResourceHints_fold h initComponents
    rw [ht]
    simpa [initComponents] using List.Nodup.sublist hs hnd
  · obtain ⟨t, ht, hs⟩ := linkStylesheetBeforeAmpCustom_fold h initComponents
    rw [ht]
    simpa [initComponents] using List.Nodup.sublist hs hnd
  · obtain ⟨t, ht, hs⟩ := other_fold h initComponents
    rw [ht]
    simpa [initComponents] using List.Nodup.sublist hs hnd

/-- C9 amended witness: a concrete two-element head. -/
theorem c9_single_call_buckets_nodup_witness :
    ∃ hcF out, reorderHead initComponents (some [elPlainScript, elTitle]) =
      Except.ok (hcF, out) ∧
      hcF.metaOther.Nodup ∧ hcF.scriptRenderDelayingExtensions.Nodup ∧
      hcF.scriptNonRenderDelayingExtensions.Nodup ∧ hcF.linkIcons.Nodup ∧
      hcF.linkResourceHints.Nodup ∧ hcF.linkStylesheetBeforeAmpCustom.Nodup ∧
      hcF.other.Nodup :=
  c9_single_call_buckets_nodup [elPlainScript, elTitle] (by decide)

/-- C1 counterexample: `[noscript, title]` puts both nodes in the `other`
list in that order, yet the output is `[title, noscript]` — two nodes of the
same list bucket whose relative output order is the reverse of their input
document order, so the emission is not exactly the fixed 16-step segment
concatenation. -/
theorem c1_fixed_order_counterexample :
    ∃ hcF out, reorderHead initComponents (some [elNoscript, elTitle]) =
      Except.ok (hcF, out) ∧
      elNoscript ∈ hcF.other ∧ elTitle ∈ hcF.other ∧
      List.indexOf elNoscript [elNoscript, elTitle] <
        List.indexOf elTitle [elNoscript, elTitle] ∧
      List.indexOf elTitle out < List.indexOf elNoscript out :=
  ⟨{ initComponents with other := [elNoscript, elTitle], noscript := some elNoscript },
    [elTitle, elNoscript], rfl, by decide, by decide, by decide, by decide⟩

/-- C1 amended: for every duplicate-free head, a fresh transformer emits
exactly `specEmit` — the fixed 16-step sequence of section 4.2, with the one
amendment that the `noscript` slot's occupant (also present in `other` via
the fall-through) is emitted only at the final noscript position — and every
list bucket is a sublist of the input, so the relative order of any two nodes
within one bucket equals their relative input document order. -/
theorem c1_fixed_order_amended (h : List Element) (hnd : h.Nodup) :
    ∃ hcF, reorderHead initComponents (some h) = Except.ok (hcF, specEmit hcF) ∧
      hcF.metaOther.Sublist h ∧ hcF.scriptRenderDelayingExtensions.Sublist h ∧
      hcF.scriptNonRenderDelayingExtensions.Sublist h ∧ hcF.linkIcons.Sublist h ∧
      hcF.linkResourceHints.Sublist h ∧ hcF.linkStylesheetBeforeAmpCustom.Sublist h ∧
      hcF.other.Sublist h := by
  have hInv : Inv (registerAll initComponents h) := inv_registerAll_init hnd
  refine ⟨registerAll initComponents h, ?_, ?_, ?_, ?_, ?_, ?_, ?_, ?_⟩
  · rw [reorderHead_ok, repopulate_of_inv hInv]
  · obtain ⟨t, ht, hs⟩ := metaOther_fold h initComponents
    rw [ht]
    simpa [initComponents] using hs
  · obtain ⟨t, ht, hs⟩ := rde_fold h initComponents
    rw [ht]
    simpa [initComponents] using hs
  · obtain ⟨t, ht, hs⟩ := nrde_fold h initComponents
    rw [ht]
    simpa [initComponents] using hs
  · obtain ⟨t, ht, hs⟩ := linkIcons_fold h initComponents
    rw [ht]
    simpa [initComponents] using hs
  · obtain ⟨t, ht, hs⟩ := linkResourceHints_fold h initComponents
    rw [ht]
    simpa [initComponents] using hs
  · obtain ⟨t, ht, hs⟩ := linkStylesheetBeforeAmpCustom_fold h initComponents
    rw [ht]
    simpa [initComponents] using hs
  · obtain ⟨t, ht, hs⟩ := other_fold h initComponents
    rw [ht]
    simpa [initComponents] using hs

/-- C1 amended witness: the concrete head `[noscript, title]`. -/
theorem c1_fixed_order_amended_witness :
    ∃ hcF, reorderHead initComponents (some [elNoscript, elTitle]) =
      Except.ok (hcF, specEmit hcF) ∧
      hcF.metaOther.Sublist [elNoscript, elTitle] ∧
      hcF.scriptRenderDelayingExtensions.Sublist [elNoscript, elTitle] ∧
      hcF.scriptNonRenderDelayingExtensions.Sublist [elNoscript, elTitle] ∧
      hcF.linkIcons.Sublist [elNoscript, elTitle] ∧
      hcF.linkResourceHints.Sublist [elNoscript, elTitle] ∧
      hcF.linkStylesheetBeforeAmpCustom.Sublist [elNoscript, elTitle] ∧
      hcF.other.Sublist [elNoscript, elTitle] :=
  c1_fixed_order_amended [elNoscript, elTitle] (by decide)

/-- C5: a stylesheet link whose `href` is not the AMP runtime css is appended
to `linkStylesheetBeforeAmpCustom` and appears in the output when the
`styleAmpCustom` slot is still empty at the moment the link is processed; if
that slot is already occupied, the link is dropped entirely — registered
nowhere (in particular not in `other`) and absent from the output. -/
theorem c5_stylesheet_link_rule (h1 h2 : List Element) (e : Element)
    (he1 : e.tagName = "LINK") (he2 : getAttribute e "rel" = some "stylesheet")
    (he3 : (strStartsWith (getAttribute e "href") "https://cdn.ampproject.org/" &&
      strEndsWith (getAttribute e "href") "/v0.css") = false)
    (hnd : (h1 ++ e :: h2).Nodup) :
    ∃ hcF out, reorderHead initComponents (some (h1 ++ e :: h2)) = Except.ok (hcF, out) ∧
      ((registerAll initComponents h1).styleAmpCustom = none →
        e ∈ hcF.linkStylesheetBeforeAmpCustom ∧ e ∈ out) ∧
      ((registerAll initComponents h1).styleAmpCustom ≠ none →
        e ∉ hcF.other ∧ e ∉ out) := by
  have heh1 : e ∉ h1 := fun hh => (List.disjoint_of_nodup_append hnd) hh (by simp)
  have heh2 : e ∉ h2 :=
    (List.nodup_cons.mp (List.Nodup.of_append_right hnd)).1
  have hfresh : e ∉ elemsAll (registerAll initComponents h1) :=
    not_mem_elemsAll_fold h1 initComponents e
      (by rw [elemsAll_init]; exact List.not_mem_nil e) heh1
  have hsplit : registerAll initComponents (h1 ++ e :: h2) =
      registerAll (registerChild (registerAll initComponents h1) e) h2 := by
    rw [show h1 ++ e :: h2 = (h1 ++ [e]) ++ h2 from by simp, registerAll_append,
      registerAll_append]
    rfl
  refine ⟨_, _, reorderHead_ok _ _, ?_, ?_⟩
  · intro hnone
    have hstep := registerChild_link_stylesheet_push he1 he2 he3 hnone
    have hmem : e ∈ (registerAll initComponents
        (h1 ++ e :: h2)).linkStylesheetBeforeAmpCustom := by
      rw [hsplit]
      obtain ⟨t, ht, _⟩ :=
        linkStylesheetBeforeAmpCustom_fold h2 (registerChild (registerAll initComponents h1) e)
      rw [ht, hstep]
      simp
    exact ⟨hmem, mem_repopulate.mpr (mem_elemsAll_of_linkSBAC hmem)⟩
  · intro hsome
    have hstep : registerChild (registerAll initComponents h1) e =
        registerAll initComponents h1 :=
      registerChild_link_stylesheet_drop he1 he2 he3 hsome
    have hnot : e ∉ elemsAll (registerAll initComponents (h1 ++ e :: h2)) := by
      rw [hsplit, hstep]
      exact not_mem_elemsAll_fold h2 _ e hfresh heh2
    exact ⟨fun hh => hnot (mem_elemsAll_of_other hh),
      fun hh => hnot (mem_repopulate.mp hh)⟩

/-- C5 witness: a stylesheet link processed after `<style amp-custom>` is
dropped from the output. -/
theorem c5_stylesheet_link_rule_witness :
    ∃ hcF out, reorderHead initComponents
        (some ([elCustomStyle] ++ elStylesheetLink :: ([] : List Element))) =
      Except.ok (hcF, out) ∧
      ((registerAll initComponents [elCustomStyle]).styleAmpCustom = none →
        elStylesheetLink ∈ hcF.linkStylesheetBeforeAmpCustom ∧ elStylesheetLink ∈ out) ∧
      ((registerAll initComponents [elCustomStyle]).styleAmpCustom ≠ none →
        elStylesheetLink ∉ hcF.other ∧ elStylesheetLink ∉ out) :=
  c5_stylesheet_link_rule [elCustomStyle] [] elStylesheetLink (by decide) (by decide)
    (by decide) (by decide)

/-! ### Route-based characterization of one classification pass -/

theorem step_metaCharset (hc : HeadComponents) (e : Element) :
    (registerChild hc e).metaCharset =
      if routeOf e = Route.metaCharset then some e else hc.metaCharset := by
  simp only [registerChild, registerMeta, registerScript, registerStyle, registerLink, routeOf]
  split_ifs <;> simp_all

theorem step_noscript (hc : HeadComponents) (e : Element) :
    (registerChild hc e).noscript =
      if routeOf e = Route.noscript then some e else hc.noscript := by
  simp only [registerChild, registerMeta, registerScript, registerStyle, registerLink, routeOf]
  split_ifs <;> simp_all

theorem step_engine (hc : HeadComponents) (e : Element) :
    (registerChild hc e).scriptAmpEngine =
      if routeOf e = Route.engine then some e else hc.scriptAmpEngine := by
  simp only [registerChild, registerMeta, registerScript, registerStyle, registerLink, routeOf]
  split_ifs <;> simp_all

theorem step_gmail (hc : HeadComponents) (e : Element) :
    (registerChild hc e).scriptGmailAmpViewer =
      if routeOf e = Route.gmail then some e else hc.scriptGmailAmpViewer := by
  simp only [registerChild, registerMeta, registerScript, registerStyle, registerLink, routeOf]
  split_ifs <;> simp_all

theorem step_viewer (hc : HeadComponents) (e : Element) :
    (registerChild hc e).scriptAmpViewer =
      if routeOf e = Route.viewer then some e else hc.scriptAmpViewer := by
  simp only [registerChild, registerMeta, registerScript, registerStyle, registerLink, routeOf]
  split_ifs <;> simp_all

theorem step_styleRuntime (hc : HeadComponents) (e : Element) :
    (registerChild hc e).styleAmpRuntime =
      if routeOf e = Route.styleRuntime then some e else hc.styleAmpRuntime := by
  simp only [registerChild, registerMeta, registerScript, registerStyle, registerLink, routeOf]
  split_ifs <;> simp_all

theorem step_styleCustom (hc : HeadComponents) (e : Element) :
    (registerChild hc e).styleAmpCustom =
      if routeOf e = Route.styleCustom then some e else hc.styleAmpCustom := by
  simp only [registerChild, registerMeta, registerScript, registerStyle, registerLink, routeOf]
  split_ifs <;> simp_all

theorem step_styleBoiler (hc : HeadComponents) (e : Element) :
    (registerChild hc e).styleAmpBoilerplate =
      if routeOf e = Route.styleBoiler then some e else hc.styleAmpBoilerplate := by
  simp only [registerChild, registerMeta, registerScript, registerStyle, registerLink, routeOf]
  split_ifs <;> simp_all

theorem step_runtimeCss (hc : HeadComponents) (e : Element) :
    (registerChild hc e).linkStylesheetRuntimeCss =
      if routeOf e = Route.runtimeCss then some e else hc.linkStylesheetRuntimeCss := by
  simp only [registerChild, registerMeta, registerScript, registerStyle, registerLink, routeOf]
  split_ifs <;> simp_all

theorem step_rde (hc : HeadComponents) (e : Element) :
    (registerChild hc e).scriptRenderDelayingExtensions =
      hc.scriptRenderDelayingExtensions ++ (if routeOf e = Route.rde then [e] else []) := by
  simp only [registerChild, registerMeta, registerScript, registerStyle, registerLink, routeOf]
  split_ifs <;> simp_all

theorem step_nrde (hc : HeadComponents) (e : Element) :
    (registerChild hc e).scriptNonRenderDelayingExtensions =
      hc.scriptNonRenderDelayingExtensions ++ (if routeOf e = Route.nrde then [e] else []) := by
  simp only [registerChild, registerMeta, registerScript, registerStyle, registerLink, routeOf]
  split_ifs <;> simp_all

theorem step_icons (hc : HeadComponents) (e : Element) :
    (registerChild hc e).linkIcons =
      hc.linkIcons ++ (if routeOf e = Route.icons then [e] else []) := by
  simp only [registerChild, registerMeta, registerScript, registerStyle, registerLink, routeOf]
  split_ifs <;> simp_all

theorem step_hints (hc : HeadComponents) (e : Element) :
    (registerChild hc e).linkResourceHints =
      hc.linkResourceHints ++ (if routeOf e = Route.hints then [e] else []) := by
  simp only [registerChild, registerMeta, registerScript, registerStyle, registerLink, routeOf]
  split_ifs <;> simp_all

theorem step_lsbac (hc : HeadComponents) (e : Element) :
    (registerChild hc e).linkStylesheetBeforeAmpCustom =
      hc.linkStylesheetBeforeAmpCustom ++
        (if routeOf e = Route.stylesheetOther ∧ hc.styleAmpCustom = none then [e] else []) := by
  simp only [registerChild, registerMeta, registerScript, registerStyle, registerLink, routeOf]
  split_ifs <;> simp_all

theorem step_metaOther (hc : HeadComponents) (e : Element) (he : e ∉ hc.metaOther) :
    (registerChild hc e).metaOther =
      hc.metaOther ++ (if routeOf e = Route.metaOther then [e] else []) := by
  simp only [registerChild, registerMeta, registerScript, registerStyle, registerLink, routeOf]
  split_ifs <;> simp_all

theorem step_other (hc : HeadComponents) (e : Element) (he : e ∉ hc.other) :
    (registerChild hc e).other =
      hc.other ++
        (if routeOf e = Route.other ∨ routeOf e = Route.noscript then [e] else []) := by
  simp only [registerChild, registerMeta, registerScript, registerStyle, registerLink, routeOf]
  split_ifs <;> simp_all

theorem getLast?_cons_match (a : Element) (l : List Element) :
    (a :: l).getLast? = match l.getLast? with | some x => some x | none => some a := by
  cases hl : l.getLast? with
  | none =>
      rw [List.getLast?_eq_none_iff.mp hl]
      rfl
  | some x =>
      cases l with
      | nil => simp at hl
      | cons b t =>
          rw [List.getLast?_cons_cons, hl]

theorem slot_fold {S : HeadComponents → Option Element} {r : Route}
    (hstep : ∀ hc e, S (registerChild hc e) = if routeOf e = r then some e else S hc) :
    ∀ (h : List Element) (hc : HeadComponents),
      S (registerAll hc h) =
        match (h.filter (fun x => decide (routeOf x = r))).getLast? with
        | some x => some x
        | none => S hc := by
  intro h
  induction h with
  | nil => intro hc; rfl
  | cons e tl ih =>
      intro hc
      rw [show registerAll hc (e :: tl) = registerAll (registerChild hc e) tl from rfl,
        ih (registerChild hc e), hstep, List.filter_cons]
      by_cases hre : routeOf e = r
      · rw [if_pos hre, if_pos (show decide (routeOf e = r) = true from by simp [hre]),
          getLast?_cons_match]
        cases hfl : (tl.filter (fun x => decide (routeOf x = r))).getLast? <;> rfl
      · rw [if_neg hre, if_neg (show ¬decide (routeOf e = r) = true from by simp [hre])]

theorem list_fold_filter {L : HeadComponents → List Element} {r : Route}
    (hstep : ∀ hc e, L (registerChild hc e) = L hc ++ (if routeOf e = r then [e] else [])) :
    ∀ (h : List Element) (hc : HeadComponents),
      L (registerAll hc h) = L hc ++ h.filter (fun x => decide (routeOf x = r)) := by
  intro h
  induction h with
  | nil => intro hc; simp [registerAll]
  | cons e tl ih =>
      intro hc
      rw [show registerAll hc (e :: tl) = registerAll (registerChild hc e) tl from rfl,
        ih (registerChild hc e), hstep, List.filter_cons]
      by_cases hre : routeOf e = r <;> simp [hre]

theorem metaOther_fold_filter : ∀ (h : List Element) (hc : HeadComponents), h.Nodup →
    (∀ x ∈ h, x ∉ hc.metaOther) →
    (registerAll hc h).metaOther =
      hc.metaOther ++ h.filter (fun x => decide (routeOf x = Route.metaOther)) := by
  intro h
  induction h with
  | nil => intro hc _ _; simp [registerAll]
  | cons e tl ih =>
      intro hc hnd hd
      have hstep := step_metaOther hc e (hd e (by simp))
      have hd2 : ∀ x ∈ tl, x ∉ (registerChild hc e).metaOther := by
        intro x hx
        rw [hstep]
        simp only [List.mem_append]
        rintro (h1 | h1)
        · exact hd x (by simp [hx]) h1
        · have hxe : x = e := by
            by_cases hre : routeOf e = Route.metaOther <;> simp [hre] at h1
            exact h1
          exact (List.nodup_cons.mp hnd).1 (hxe ▸ hx)
      rw [show registerAll hc (e :: tl) = registerAll (registerChild hc e) tl from rfl,
        ih (registerChild hc e) hnd.of_cons hd2, hstep, List.filter_cons]
      by_cases hre : routeOf e = Route.metaOther <;> simp [hre]

theorem other_fold_filter : ∀ (h : List Element) (hc : HeadComponents), h.Nodup →
    (∀ x ∈ h, x ∉ hc.other) →
    (registerAll hc h).other = hc.other ++
      h.filter (fun x => decide (routeOf x = Route.other ∨ routeOf x = Route.noscript)) := by
  intro h
  induction h with
  | nil => intro hc _ _; simp [registerAll]
  | cons e tl ih =>
      intro hc hnd hd
      have hstep := step_other hc e (hd e (by simp))
      have hd2 : ∀ x ∈ tl, x ∉ (registerChild hc e).other := by
        intro x hx
        rw [hstep]
        simp only [List.mem_append]
        rintro (h1 | h1)
        · exact hd x (by simp [hx]) h1
        · have hxe : x = e := by
            by_cases hre : routeOf e = Route.other ∨ routeOf e = Route.noscript <;>
              simp [hre] at h1
            exact h1
          exact (List.nodup_cons.mp hnd).1 (hxe ▸ hx)
      rw [show registerAll hc (e :: tl) = registerAll (registerChild hc e) tl from rfl,
        ih (registerChild hc e) hnd.of_cons hd2, hstep, List.filter_cons]
      by_cases hre : routeOf e = Route.other ∨ routeOf e = Route.noscript <;> simp [hre]

theorem styleCustom_some_fold : ∀ (h : List Element) (hc : HeadComponents),
    hc.styleAmpCustom ≠ none → (registerAll hc h).styleAmpCustom ≠ none := by
  intro h
  induction h with
  | nil => intro hc hs; exact hs
  | cons e tl ih =>
      intro hc hs
      refine ih (registerChild hc e) ?_
      rw [step_styleCustom]
      by_cases hre : routeOf e = Route.styleCustom <;> simp [hre, hs]

theorem lsbac_frozen : ∀ (h : List Element) (hc : HeadComponents),
    hc.styleAmpCustom ≠ none →
    (registerAll hc h).linkStylesheetBeforeAmpCustom = hc.linkStylesheetBeforeAmpCustom := by
  intro h
  induction h with
  | nil => intro hc _; rfl
  | cons e tl ih =>
      intro hc hs
      have h1 : (registerChild hc e).styleAmpCustom ≠ none := by
        rw [step_styleCustom]
        by_cases hre : routeOf e = Route.styleCustom <;> simp [hre, hs]
      rw [show registerAll hc (e :: tl) = registerAll (registerChild hc e) tl from rfl,
        ih (registerChild hc e) h1, step_lsbac]
      simp [hs]

theorem lsbac_fold_none : ∀ (h : List Element) (hc : HeadComponents),
    hc.styleAmpCustom = none →
    (registerAll hc h).linkStylesheetBeforeAmpCustom =
      hc.linkStylesheetBeforeAmpCustom ++
        (h.takeWhile (fun x => !decide (routeOf x = Route.styleCustom))).filter
          (fun x => decide (routeOf x = Route.stylesheetOther)) := by
  intro h
  induction h with
  | nil => intro hc _; simp [registerAll]
  | cons e tl ih =>
      intro hc hs
      by_cases hce : routeOf e = Route.styleCustom
      · have h1 : (registerChild hc e).styleAmpCustom ≠ none := by
          rw [step_styleCustom]
          simp [hce]
        rw [show registerAll hc (e :: tl) = registerAll (registerChild hc e) tl from rfl,
          lsbac_frozen tl (registerChild hc e) h1, step_lsbac,
          List.takeWhile_cons_of_neg (by simp [hce])]
        simp [hce]
      · have h1 : (registerChild hc e).styleAmpCustom = none := by
          rw [step_styleCustom]
          simp [hce, hs]
        rw [show registerAll hc (e :: tl) = registerAll (registerChild hc e) tl from rfl,
          ih (registerChild hc e) h1, step_lsbac,
          List.takeWhile_cons_of_pos (by simp [hce]), List.filter_cons]
        by_cases hse : routeOf e = Route.stylesheetOther <;> simp [hse, hs]

theorem filter_decide_keep {P : Element → Prop} [DecidablePred P] {l : List Element}
    (hl : ∀ x ∈ l, P x) : l.filter (fun x => decide (P x)) = l := by
  apply List.filter_eq_self.mpr
  intro a ha
  exact decide_eq_true (hl a ha)

theorem filter_decide_vanish {P : Element → Prop} [DecidablePred P] {l : List Element}
    (hl : ∀ x ∈ l, ¬ P x) : l.filter (fun x => decide (P x)) = [] := by
  rw [List.filter_eq_nil_iff]
  intro a ha
  simp [hl a ha]

theorem mem_filter_decide {P : Element → Prop} [DecidablePred P] {l : List Element}
    {x : Element} (hx : x ∈ l.filter (fun x => decide (P x))) : P x := by
  rw [List.mem_filter] at hx
  exact of_decide_eq_true hx.2

theorem match_getLast_toList (o : Option Element) :
    (match o.toList.getLast? with | some x => some x | none => none) = o := by
  cases o <;> rfl

theorem takeWhile_append_pos {p : Element → Bool} : ∀ {l1 l2 : List Element},
    (∀ x ∈ l1, p x = true) → (l1 ++ l2).takeWhile p = l1 ++ l2.takeWhile p := by
  intro l1
  induction l1 with
  | nil => intro l2 _; simp
  | cons a t ih =>
      intro l2 hl
      rw [List.cons_append, List.takeWhile_cons_of_pos (hl a (by simp)), ih]
      · rfl
      · intro x hx
        exact hl x (by simp [hx])


/-- A fresh-instance classification pass fills the `metaCharset` slot with the
last charset meta of the input, and the remaining buckets analogously: each
bucket of `registerAll initComponents h` is characterised below as a filter
(or last filtered element) of `h` by the `routeOf` classification. -/
theorem fresh_metaCharset (h : List Element) :
    (registerAll initComponents h).metaCharset =
      match (h.filter (fun x => decide (routeOf x = Route.metaCharset))).getLast? with
      | some x => some x
      | none => none := by
  rw [slot_fold step_metaCharset h initComponents]
  cases (h.filter (fun x => decide (routeOf x = Route.metaCharset))).getLast? <;> rfl

theorem fresh_noscript (h : List Element) :
    (registerAll initComponents h).noscript =
      match (h.filter (fun x => decide (routeOf x = Route.noscript))).getLast? with
      | some x => some x
      | none => none := by
  rw [slot_fold step_noscript h initComponents]
  cases (h.filter (fun x => decide (routeOf x = Route.noscript))).getLast? <;> rfl

theorem fresh_engine (h : List Element) :
    (registerAll initComponents h).scriptAmpEngine =
      match (h.filter (fun x => decide (routeOf x = Route.engine))).getLast? with
      | some x => some x
      | none => none := by
  rw [slot_fold step_engine h initComponents]
  cases (h.filter (fun x => decide (routeOf x = Route.engine))).getLast? <;> rfl

theorem fresh_gmail (h : List Element) :
    (registerAll initComponents h).scriptGmailAmpViewer =
      match (h.filter (fun x => decide (routeOf x = Route.gmail))).getLast? with
      | some x => some x
      | none => none := by
  rw [slot_fold step_gmail h initComponents]
  cases (h.filter (fun x => decide (routeOf x = Route.gmail))).getLast? <;> rfl

theorem fresh_viewer (h : List Element) :
    (registerAll initComponents h).scriptAmpViewer =
      match (h.filter (fun x => decide (routeOf x = Route.viewer))).getLast? with
      | some x => some x
      | none => none := by
  rw [slot_fold step_viewer h initComponents]
  cases (h.filter (fun x => decide (routeOf x = Route.viewer))).getLast? <;> rfl

theorem fresh_styleRuntime (h : List Element) :
    (registerAll initComponents h).styleAmpRuntime =
      match (h.filter (fun x => decide (routeOf x = Route.styleRuntime))).getLast? with
      | some x => some x
      | none => none := by
  rw [slot_fold step_styleRuntime h initComponents]
  cases (h.filter (fun x => decide (routeOf x = Route.styleRuntime))).getLast? <;> rfl

theorem fresh_styleCustom (h : List Element) :
    (registerAll initComponents h).styleAmpCustom =
      match (h.filter (fun x => decide (routeOf x = Route.styleCustom))).getLast? with
      | some x => some x
      | none => none := by
  rw [slot_fold step_styleCustom h initComponents]
  cases (h.filter (fun x => decide (routeOf x = Route.styleCustom))).getLast? <;> rfl

theorem fresh_styleBoiler (h : List Element) :
    (registerAll initComponents h).styleAmpBoilerplate =
      match (h.filter (fun x => decide (routeOf x = Route.styleBoiler))).getLast? with
      | some x => some x
      | none => none := by
  rw [slot_fold step_styleBoiler h initComponents]
  cases (h.filter (fun x => decide (routeOf x = Route.styleBoiler))).getLast? <;> rfl

theorem fresh_runtimeCss (h : List Element) :
    (registerAll initComponents h).linkStylesheetRuntimeCss =
      match (h.filter (fun x => decide (routeOf x = Route.runtimeCss))).getLast? with
      | some x => some x
      | none => none := by
  rw [slot_fold step_runtimeCss h initComponents]
  cases (h.filter (fun x => decide (routeOf x = Route.runtimeCss))).getLast? <;> rfl

theorem fresh_rde (h : List Element) :
    (registerAll initComponents h).scriptRenderDelayingExtensions =
      h.filter (fun x => decide (routeOf x = Route.rde)) := by
  rw [list_fold_filter step_rde h initComponents]
  rfl

theorem fresh_nrde (h : List Element) :
    (registerAll initComponents h).scriptNonRenderDelayingExtensions =
      h.filter (fun x => decide (routeOf x = Route.nrde)) := by
  rw [list_fold_filter step_nrde h initComponents]
  rfl

theorem fresh_icons (h : List Element) :
    (registerAll initComponents h).linkIcons =
      h.filter (fun x => decide (routeOf x = Route.icons)) := by
  rw [list_fold_filter step_icons h initComponents]
  rfl

theorem fresh_hints (h : List Element) :
    (registerAll initComponents h).linkResourceHints =
      h.filter (fun x => decide (routeOf x = Route.hints)) := by
  rw [list_fold_filter step_hints h initComponents]
  rfl

theorem fresh_metaOther (h : List Element) (hnd : h.Nodup) :
    (registerAll initComponents h).metaOther =
      h.filter (fun x => decide (routeOf x = Route.metaOther)) := by
  rw [metaOther_fold_filter h initComponents hnd (by intro x _; simp [initComponents])]
  rfl

theorem fresh_other (h : List Element) (hnd : h.Nodup) :
    (registerAll initComponents h).other =
      h.filter (fun x => decide (routeOf x = Route.other ∨ routeOf x = Route.noscript)) := by
  rw [other_fold_filter h initComponents hnd (by intro x _; simp [initComponents])]
  rfl

theorem fresh_lsbac (h : List Element) :
    (registerAll initComponents h).linkStylesheetBeforeAmpCustom =
      (h.takeWhile (fun x => !decide (routeOf x = Route.styleCustom))).filter
        (fun x => decide (routeOf x = Route.stylesheetOther)) := by
  rw [lsbac_fold_none h initComponents rfl]
  rfl

theorem content_of_filter_eq {L : List Element} {P : Element → Prop} [DecidablePred P]
    {l : List Element} (heq : L = l.filter (fun x => decide (P x))) : ∀ x ∈ L, P x :=
  fun _ hx => mem_filter_decide (heq ▸ hx)

theorem content_of_slot_match {o : Option Element} {l : List Element} {P : Element → Prop}
    [DecidablePred P]
    (heq : o = match (l.filter (fun x => decide (P x))).getLast? with
      | some x => some x
      | none => none) : ∀ x ∈ o.toList, P x := by
  intro x hx
  simp only [Option.mem_toList, Option.mem_def] at hx
  rw [hx] at heq
  cases hgl : (l.filter (fun x => decide (P x))).getLast? with
  | none => rw [hgl] at heq; exact absurd heq (by simp)
  | some y =>
      rw [hgl] at heq
      have hxy : x = y := by
        injection heq
      exact hxy ▸ mem_filter_decide (List.mem_of_getLast?_eq_some hgl)

theorem takeWhile_all {p : Element → Bool} : ∀ {l : List Element},
    (∀ x ∈ l, p x = true) → l.takeWhile p = l := by
  intro l
  induction l with
  | nil => intro _; rfl
  | cons a t ih =>
      intro hl
      rw [List.takeWhile_cons_of_pos (hl a (by simp)), ih (fun x hx => hl x (by simp [hx]))]

theorem filter_false_of_content {l : List Element} {r : Route} (C : ∀ x ∈ l, routeOf x = r) :
    ∀ (q : Element → Bool), (∀ y, routeOf y = r → q y = false) → l.filter q = [] := by
  intro q hq
  rw [List.filter_eq_nil_iff]
  intro a ha
  simp [hq a (C a ha)]

theorem filter_true_of_content {l : List Element} {r : Route} (C : ∀ x ∈ l, routeOf x = r) :
    ∀ (q : Element → Bool), (∀ y, routeOf y = r → q y = true) → l.filter q = l := by
  intro q hq
  exact List.filter_eq_self.mpr (fun a ha => hq a (C a ha))

theorem filter_false_of_content2 {l : List Element}
    (C : ∀ x ∈ l, routeOf x = Route.other ∨ routeOf x = Route.noscript) :
    ∀ (q : Element → Bool), (∀ y, routeOf y = Route.other → q y = false) →
      (∀ y, routeOf y = Route.noscript → q y = false) → l.filter q = [] := by
  intro q h1 h2
  rw [List.filter_eq_nil_iff]
  intro a ha
  rcases C a ha with hr | hr
  · simp [h1 a hr]
  · simp [h2 a hr]

theorem filter_true_of_content2 {l : List Element}
    (C : ∀ x ∈ l, routeOf x = Route.other ∨ routeOf x = Route.noscript) :
    ∀ (q : Element → Bool), (∀ y, routeOf y = Route.other → q y = true) →
      (∀ y, routeOf y = Route.noscript → q y = true) → l.filter q = l := by
  intro q h1 h2
  apply List.filter_eq_self.mpr
  intro a ha
  rcases C a ha with hr | hr
  · exact h1 a hr
  · exact h2 a hr

theorem specEmit_shape (hc : HeadComponents) : ∃ oth : List Element,
    specEmit hc = occA hc ++ oth ++ hc.styleAmpBoilerplate.toList ++ hc.noscript.toList ∧
    (∀ x ∈ oth, x ∈ hc.other) ∧
    (hc.noscript = none → oth = hc.other) ∧
    (∀ n, hc.noscript = some n → oth = hc.other.filter (fun c => decide (c ≠ n))) := by
  cases hns : hc.noscript with
  | none =>
      refine ⟨hc.other, ?_, fun x hx => hx, fun _ => rfl, fun n hb => by simp [hns] at hb⟩
      simp [specEmit, hns]
  | some n =>
      refine ⟨hc.other.filter (fun c => decide (c ≠ n)), ?_, ?_, ?_, ?_⟩
      · simp [specEmit, hns]
      · exact fun x hx => (List.mem_filter.mp hx).1
      · intro hb; exact absurd hb (by simp)
      · intro m hm
        injection hm with he
        rw [he]

theorem reclassify_contents (hc1 : HeadComponents)
    (hndOut : (specEmit hc1).Nodup)
    (Cmc : ∀ x ∈ hc1.metaCharset.toList, routeOf x = Route.metaCharset)
    (Crcss : ∀ x ∈ hc1.linkStylesheetRuntimeCss.toList, routeOf x = Route.runtimeCss)
    (Csar : ∀ x ∈ hc1.styleAmpRuntime.toList, routeOf x = Route.styleRuntime)
    (Cmo : ∀ x ∈ hc1.metaOther, routeOf x = Route.metaOther)
    (Ceng : ∀ x ∈ hc1.scriptAmpEngine.toList, routeOf x = Route.engine)
    (Cav : ∀ x ∈ hc1.scriptAmpViewer.toList, routeOf x = Route.viewer)
    (Cgv : ∀ x ∈ hc1.scriptGmailAmpViewer.toList, routeOf x = Route.gmail)
    (Crde : ∀ x ∈ hc1.scriptRenderDelayingExtensions, routeOf x = Route.rde)
    (Cnrde : ∀ x ∈ hc1.scriptNonRenderDelayingExtensions, routeOf x = Route.nrde)
    (Cic : ∀ x ∈ hc1.linkIcons, routeOf x = Route.icons)
    (Chi : ∀ x ∈ hc1.linkResourceHints, routeOf x = Route.hints)
    (Cls : ∀ x ∈ hc1.linkStylesheetBeforeAmpCustom, routeOf x = Route.stylesheetOther)
    (Ccust : ∀ x ∈ hc1.styleAmpCustom.toList, routeOf x = Route.styleCustom)
    (Cot : ∀ x ∈ hc1.other, routeOf x = Route.other ∨ routeOf x = Route.noscript)
    (Cboil : ∀ x ∈ hc1.styleAmpBoilerplate.toList, routeOf x = Route.styleBoiler)
    (Cns : ∀ x ∈ hc1.noscript.toList, routeOf x = Route.noscript)
    (hnsOther : hc1.noscript = none → ∀ x ∈ hc1.other, routeOf x ≠ Route.noscript) :
    specEmit (registerAll initComponents (specEmit hc1)) = specEmit hc1 := by
  obtain ⟨oth, hsh, hmem, hothNone, hothSome⟩ := specEmit_shape hc1
  have C14 : ∀ x ∈ oth, routeOf x = Route.other ∨ routeOf x = Route.noscript :=
    fun x hx => Cot x (hmem x hx)
  have hEmc : (registerAll initComponents (specEmit hc1)).metaCharset = hc1.metaCharset := by
    rw [fresh_metaCharset (specEmit hc1), hsh]
    simp only [occA, List.filter_append]
    rw [filter_true_of_content Cmc _ (by intro y hy; simp [hy]),
    filter_false_of_content Crcss _ (by intro y hy; simp [hy]),
    filter_false_of_content Csar _ (by intro y hy; simp [hy]),
    filter_false_of_content Cmo _ (by intro y hy; simp [hy]),
    filter_false_of_content Ceng _ (by intro y hy; simp [hy]),
    filter_false_of_content Cav _ (by intro y hy; simp [hy]),
    filter_false_of_content Cgv _ (by intro y hy; simp [hy]),
    filter_false_of_content Crde _ (by intro y hy; simp [hy]),
    filter_false_of_content Cnrde _ (by intro y hy; simp [hy]),
    filter_false_of_content Cic _ (by intro y hy; simp [hy]),
    filter_false_of_content Chi _ (by intro y hy; simp [hy]),
    filter_false_of_content Cls _ (by intro y hy; simp [hy]),
    filter_false_of_content Ccust _ (by intro y hy; simp [hy]),
    filter_false_of_content2 C14 _ (by intro y hy; simp [hy]) (by intro y hy; simp [hy]),
    filter_false_of_content Cboil _ (by intro y hy; simp [hy]),
    filter_false_of_content Cns _ (by intro y hy; simp [hy])]
    simp only [List.append_nil, List.nil_append]
    exact match_getLast_toList _
  have hErcss : (registerAll initComponents (specEmit hc1)).linkStylesheetRuntimeCss = hc1.linkStylesheetRuntimeCss := by
    rw [fresh_runtimeCss (specEmit hc1), hsh]
    simp only [occA, List.filter_append]
    rw [filter_false_of_content Cmc _ (by intro y hy; simp [hy]),
    filter_true_of_content Crcss _ (by intro y hy; simp [hy]),
    filter_false_of_content Csar _ (by intro y hy; simp [hy]),
    filter_false_of_content Cmo _ (by intro y hy; simp [hy]),
    filter_false_of_content Ceng _ (by intro y hy; simp [hy]),
    filter_false_of_content Cav _ (by intro y hy; simp [hy]),
    filter_false_of_content Cgv _ (by intro y hy; simp [hy]),
    filter_false_of_content Crde _ (by intro y hy; simp [hy]),
    filter_false_of_content Cnrde _ (by intro y hy; simp [hy]),
    filter_false_of_content Cic _ (by intro y hy; simp [hy]),
    filter_false_of_content Chi _ (by intro y hy; simp [hy]),
    filter_false_of_content Cls _ (by intro y hy; simp [hy]),
    filter_false_of_content Ccust _ (by intro y hy; simp [hy]),
    filter_false_of_content2 C14 _ (by intro y hy; simp [hy]) (by intro y hy; simp [hy]),
    filter_false_of_content Cboil _ (by intro y hy; simp [hy]),
    filter_false_of_content Cns _ (by intro y hy; simp [hy])]
    simp only [List.append_nil, List.nil_append]
    exact match_getLast_toList _
  have hEsar : (registerAll initComponents (specEmit hc1)).styleAmpRuntime = hc1.styleAmpRuntime := by
    rw [fresh_styleRuntime (specEmit hc1), hsh]
    simp only [occA, List.filter_append]
    rw [filter_false_of_content Cmc _ (by intro y hy; simp [hy]),
    filter_false_of_content Crcss _ (by intro y hy; simp [hy]),
    filter_true_of_content Csar _ (by intro y hy; simp [hy]),
    filter_false_of_content Cmo _ (by intro y hy; simp [hy]),
    filter_false_of_content Ceng _ (by intro y hy; simp [hy]),
    filter_false_of_content Cav _ (by intro y hy; simp [hy]),
    filter_false_of_content Cgv _ (by intro y hy; simp [hy]),
    filter_false_of_content Crde _ (by intro y hy; simp [hy]),
    filter_false_of_content Cnrde _ (by intro y hy; simp [hy]),
    filter_false_of_content Cic _ (by intro y hy; simp [hy]),
    filter_false_of_content Chi _ (by intro y hy; simp [hy]),
    filter_false_of_content Cls _ (by intro y hy; simp [hy]),
    filter_false_of_content Ccust _ (by intro y hy; simp [hy]),
    filter_false_of_content2 C14 _ (by intro y hy; simp [hy]) (by intro y hy; simp [hy]),
    filter_false_of_content Cboil _ (by intro y hy; simp [hy]),
    filter_false_of_content Cns _ (by intro y hy; simp [hy])]
    simp only [List.append_nil, List.nil_append]
    exact match_getLast_toList _
  have hEeng : (registerAll initComponents (specEmit hc1)).scriptAmpEngine = hc1.scriptAmpEngine := by
    rw [fresh_engine (specEmit hc1), hsh]
    simp only [occA, List.filter_append]
    rw [filter_false_of_content Cmc _ (by intro y hy; simp [hy]),
    filter_false_of_content Crcss _ (by intro y hy; simp [hy]),
    filter_false_of_content Csar _ (by intro y hy; simp [hy]),
    filter_false_of_content Cmo _ (by intro y hy; simp [hy]),
    filter_true_of_content Ceng _ (by intro y hy; simp [hy]),
    filter_false_of_content Cav _ (by intro y hy; simp [hy]),
    filter_false_of_content Cgv _ (by intro y hy; simp [hy]),
    filter_false_of_content Crde _ (by intro y hy; simp [hy]),
    filter_false_of_content Cnrde _ (by intro y hy; simp [hy]),
    filter_false_of_content Cic _ (by intro y hy; simp [hy]),
    filter_false_of_content Chi _ (by intro y hy; simp [hy]),
    filter_false_of_content Cls _ (by intro y hy; simp [hy]),
    filter_false_of_content Ccust _ (by intro y hy; simp [hy]),
    filter_false_of_content2 C14 _ (by intro y hy; simp [hy]) (by intro y hy; simp [hy]),
    filter_false_of_content Cboil _ (by intro y hy; simp [hy]),
    filter_false_of_content Cns _ (by intro y hy; simp [hy])]
    simp only [List.append_nil, List.nil_append]
    exact match_getLast_toList _
  have hEav : (registerAll initComponents (specEmit hc1)).scriptAmpViewer = hc1.scriptAmpViewer := by
    rw [fresh_viewer (specEmit hc1), hsh]
    simp only [occA, List.filter_append]
    rw [filter_false_of_content Cmc _ (by intro y hy; simp [hy]),
    filter_false_of_content Crcss _ (by intro y hy; simp [hy]),
    filter_false_of_content Csar _ (by intro y hy; simp [hy]),
    filter_false_of_content Cmo _ (by intro y hy; simp [hy]),
    filter_false_of_content Ceng _ (by intro y hy; simp [hy]),
    filter_true_of_content Cav _ (by intro y hy; simp [hy]),
    filter_false_of_content Cgv _ (by intro y hy; simp [hy]),
    filter_false_of_content Crde _ (by intro y hy; simp [hy]),
    filter_false_of_content Cnrde _ (by intro y hy; simp [hy]),
    filter_false_of_content Cic _ (by intro y hy; simp [hy]),
    filter_false_of_content Chi _ (by intro y hy; simp [hy]),
    filter_false_of_content Cls _ (by intro y hy; simp [hy]),
    filter_false_of_content Ccust _ (by intro y hy; simp [hy]),
    filter_false_of_content2 C14 _ (by intro y hy; simp [hy]) (by intro y hy; simp [hy]),
    filter_false_of_content Cboil _ (by intro y hy; simp [hy]),
    filter_false_of_content Cns _ (by intro y hy; simp [hy])]
    simp only [List.append_nil, List.nil_append]
    exact match_getLast_toList _
  have hEgv : (registerAll initComponents (specEmit hc1)).scriptGmailAmpViewer = hc1.scriptGmailAmpViewer := by
    rw [fresh_gmail (specEmit hc1), hsh]
    simp only [occA, List.filter_append]
    rw [filter_false_of_content Cmc _ (by intro y hy; simp [hy]),
    filter_false_of_content Crcss _ (by intro y hy; simp [hy]),
    filter_false_of_content Csar _ (by intro y hy; simp [hy]),
    filter_false_of_content Cmo _ (by intro y hy; simp [hy]),
    filter_false_of_content Ceng _ (by intro y hy; simp [hy]),
    filter_false_of_content Cav _ (by intro y hy; simp [hy]),
    filter_true_of_content Cgv _ (by intro y hy; simp [hy]),
    filter_false_of_content Crde _ (by intro y hy; simp [hy]),
    filter_false_of_content Cnrde _ (by intro y hy; simp [hy]),
    filter_false_of_content Cic _ (by intro y hy; simp [hy]),
    filter_false_of_content Chi _ (by intro y hy; simp [hy]),
    filter_false_of_content Cls _ (by intro y hy; simp [hy]),
    filter_false_of_content Ccust _ (by intro y hy; simp [hy]),
    filter_false_of_content2 C14 _ (by intro y hy; simp [hy]) (by intro y hy; simp [hy]),
    filter_false_of_content Cboil _ (by intro y hy; simp [hy]),
    filter_false_of_content Cns _ (by intro y hy; simp [hy])]
    simp only [List.append_nil, List.nil_append]
    exact match_getLast_toList _
  have hEcust : (registerAll initComponents (specEmit hc1)).styleAmpCustom = hc1.styleAmpCustom := by
    rw [fresh_styleCustom (specEmit hc1), hsh]
    simp only [occA, List.filter_append]
    rw [filter_false_of_content Cmc _ (by intro y hy; simp [hy]),
    filter_false_of_content Crcss _ (by intro y hy; simp [hy]),
    filter_false_of_content Csar _ (by intro y hy; simp [hy]),
    filter_false_of_content Cmo _ (by intro y hy; simp [hy]),
    filter_false_of_content Ceng _ (by intro y hy; simp [hy]),
    filter_false_of_content Cav _ (by intro y hy; simp [hy]),
    filter_false_of_content Cgv _ (by intro y hy; simp [hy]),
    filter_false_of_content Crde _ (by intro y hy; simp [hy]),
    filter_false_of_content Cnrde _ (by intro y hy; simp [hy]),
    filter_false_of_content Cic _ (by intro y hy; simp [hy]),
    filter_false_of_content Chi _ (by intro y hy; simp [hy]),
    filter_false_of_content Cls _ (by intro y hy; simp [hy]),
    filter_true_of_content Ccust _ (by intro y hy; simp [hy]),
    filter_false_of_content2 C14 _ (by intro y hy; simp [hy]) (by intro y hy; simp [hy]),
    filter_false_of_content Cboil _ (by intro y hy; simp [hy]),
    filter_false_of_content Cns _ (by intro y hy; simp [hy])]
    simp only [List.append_nil, List.nil_append]
    exact match_getLast_toList _
  have hEboil : (registerAll initComponents (specEmit hc1)).styleAmpBoilerplate = hc1.styleAmpBoilerplate := by
    rw [fresh_styleBoiler (specEmit hc1), hsh]
    simp only [occA, List.filter_append]
    rw [filter_false_of_content Cmc _ (by intro y hy; simp [hy]),
    filter_false_of_content Crcss _ (by intro y hy; simp [hy]),
    filter_false_of_content Csar _ (by intro y hy; simp [hy]),
    filter_false_of_content Cmo _ (by intro y hy; simp [hy]),
    filter_false_of_content Ceng _ (by intro y hy; simp [hy]),
    filter_false_of_content Cav _ (by intro y hy; simp [hy]),
    filter_false_of_content Cgv _ (by intro y hy; simp [hy]),
    filter_false_of_content Crde _ (by intro y hy; simp [hy]),
    filter_false_of_content Cnrde _ (by intro y hy; simp [hy]),
    filter_false_of_content Cic _ (by intro y hy; simp [hy]),
    filter_false_of_content Chi _ (by intro y hy; simp [hy]),
    filter_false_of_content Cls _ (by intro y hy; simp [hy]),
    filter_false_of_content Ccust _ (by intro y hy; simp [hy]),
    filter_false_of_content2 C14 _ (by intro y hy; simp [hy]) (by intro y hy; simp [hy]),
    filter_true_of_content Cboil _ (by intro y hy; simp [hy]),
    filter_false_of_content Cns _ (by intro y hy; simp [hy])]
    simp only [List.append_nil, List.nil_append]
    exact match_getLast_toList _
  have hEmo : (registerAll initComponents (specEmit hc1)).metaOther = hc1.metaOther := by
    rw [fresh_metaOther (specEmit hc1) hndOut, hsh]
    simp only [occA, List.filter_append]
    rw [filter_false_of_content Cmc _ (by intro y hy; simp [hy]),
    filter_false_of_content Crcss _ (by intro y hy; simp [hy]),
    filter_false_of_content Csar _ (by intro y hy; simp [hy]),
    filter_true_of_content Cmo _ (by intro y hy; simp [hy]),
    filter_false_of_content Ceng _ (by intro y hy; simp [hy]),
    filter_false_of_content Cav _ (by intro y hy; simp [hy]),
    filter_false_of_content Cgv _ (by intro y hy; simp [hy]),
    filter_false_of_content Crde _ (by intro y hy; simp [hy]),
    filter_false_of_content Cnrde _ (by intro y hy; simp [hy]),
    filter_false_of_content Cic _ (by intro y hy; simp [hy]),
    filter_false_of_content Chi _ (by intro y hy; simp [hy]),
    filter_false_of_content Cls _ (by intro y hy; simp [hy]),
    filter_false_of_content Ccust _ (by intro y hy; simp [hy]),
    filter_false_of_content2 C14 _ (by intro y hy; simp [hy]) (by intro y hy; simp [hy]),
    filter_false_of_content Cboil _ (by intro y hy; simp [hy]),
    filter_false_of_content Cns _ (by intro y hy; simp [hy])]
    simp [List.append_nil, List.nil_append]
  have hErde : (registerAll initComponents (specEmit hc1)).scriptRenderDelayingExtensions = hc1.scriptRenderDelayingExtensions := by
    rw [fresh_rde (specEmit hc1), hsh]
    simp only [occA, List.filter_append]
    rw [filter_false_of_content Cmc _ (by intro y hy; simp [hy]),
    filter_false_of_content Crcss _ (by intro y hy; simp [hy]),
    filter_false_of_content Csar _ (by intro y hy; simp [hy]),
    filter_false_of_content Cmo _ (by intro y hy; simp [hy]),
    filter_false_of_content Ceng _ (by intro y hy; simp [hy]),
    filter_false_of_content Cav _ (by intro y hy; simp [hy]),
    filter_false_of_content Cgv _ (by intro y hy; simp [hy]),
    filter_true_of_content Crde _ (by intro y hy; simp [hy]),
    filter_false_of_content Cnrde _ (by intro y hy; simp [hy]),
    filter_false_of_content Cic _ (by intro y hy; simp [hy]),
    filter_false_of_content Chi _ (by intro y hy; simp [hy]),
    filter_false_of_content Cls _ (by intro y hy; simp [hy]),
    filter_false_of_content Ccust _ (by intro y hy; simp [hy]),
    filter_false_of_content2 C14 _ (by intro y hy; simp [hy]) (by intro y hy; simp [hy]),
    filter_false_of_content Cboil _ (by intro y hy; simp [hy]),
    filter_false_of_content Cns _ (by intro y hy; simp [hy])]
    simp [List.append_nil, List.nil_append]
  have hEnrde : (registerAll initComponents (specEmit hc1)).scriptNonRenderDelayingExtensions = hc1.scriptNonRenderDelayingExtensions := by
    rw [fresh_nrde (specEmit hc1), hsh]
    simp only [occA, List.filter_append]
    rw [filter_false_of_content Cmc _ (by intro y hy; simp [hy]),
    filter_false_of_content Crcss _ (by intro y hy; simp [hy]),
    filter_false_of_content Csar _ (by intro y hy; simp [hy]),
    filter_false_of_content Cmo _ (by intro y hy; simp [hy]),
    filter_false_of_content Ceng _ (by intro y hy; simp [hy]),
    filter_false_of_content Cav _ (by intro y hy; simp [hy]),
    filter_false_of_content Cgv _ (by intro y hy; simp [hy]),
    filter_false_of_content Crde _ (by intro y hy; simp [hy]),
    filter_true_of_content Cnrde _ (by intro y hy; simp [hy]),
    filter_false_of_content Cic _ (by intro y hy; simp [hy]),
    filter_false_of_content Chi _ (by intro y hy; simp [hy]),
    filter_false_of_content Cls _ (by intro y hy; simp [hy]),
    filter_false_of_content Ccust _ (by intro y hy; simp [hy]),
    filter_false_of_content2 C14 _ (by intro y hy; simp [hy]) (by intro y hy; simp [hy]),
    filter_false_of_content Cboil _ (by intro y hy; simp [hy]),
    filter_false_of_content Cns _ (by intro y hy; simp [hy])]
    simp [List.append_nil, List.nil_append]
  have hEic : (registerAll initComponents (specEmit hc1)).linkIcons = hc1.linkIcons := by
    rw [fresh_icons (specEmit hc1), hsh]
    simp only [occA, List.filter_append]
    rw [filter_false_of_content Cmc _ (by intro y hy; simp [hy]),
    filter_false_of_content Crcss _ (by intro y hy; simp [hy]),
    filter_false_of_content Csar _ (by intro y hy; simp [hy]),
    filter_false_of_content Cmo _ (by intro y hy; simp [hy]),
    filter_false_of_content Ceng _ (by intro y hy; simp [hy]),
    filter_false_of_content Cav _ (by intro y hy; simp [hy]),
    filter_false_of_content Cgv _ (by intro y hy; simp [hy]),
    filter_false_of_content Crde _ (by intro y hy; simp [hy]),
    filter_false_of_content Cnrde _ (by intro y hy; simp [hy]),
    filter_true_of_content Cic _ (by intro y hy; simp [hy]),
    filter_false_of_content Chi _ (by intro y hy; simp [hy]),
    filter_false_of_content Cls _ (by intro y hy; simp [hy]),
    filter_false_of_content Ccust _ (by intro y hy; simp [hy]),
    filter_false_of_content2 C14 _ (by intro y hy; simp [hy]) (by intro y hy; simp [hy]),
    filter_false_of_content Cboil _ (by intro y hy; simp [hy]),
    filter_false_of_content Cns _ (by intro y hy; simp [hy])]
    simp [List.append_nil, List.nil_append]
  have hEhi : (registerAll initComponents (specEmit hc1)).linkResourceHints = hc1.linkResourceHints := by
    rw [fresh_hints (specEmit hc1), hsh]
    simp only [occA, List.filter_append]
    rw [filter_false_of_content Cmc _ (by intro y hy; simp [hy]),
    filter_false_of_content Crcss _ (by intro y hy; simp [hy]),
    filter_false_of_content Csar _ (by intro y hy; simp [hy]),
    filter_false_of_content Cmo _ (by intro y hy; simp [hy]),
    filter_false_of_content Ceng _ (by intro y hy; simp [hy]),
    filter_false_of_content Cav _ (by intro y hy; simp [hy]),
    filter_false_of_content Cgv _ (by intro y hy; simp [hy]),
    filter_false_of_content Crde _ (by intro y hy; simp [hy]),
    filter_false_of_content Cnrde _ (by intro y hy; simp [hy]),
    filter_false_of_content Cic _ (by intro y hy; simp [hy]),
    filter_true_of_content Chi _ (by intro y hy; simp [hy]),
    filter_false_of_content Cls _ (by intro y hy; simp [hy]),
    filter_false_of_content Ccust _ (by intro y hy; simp [hy]),
    filter_false_of_content2 C14 _ (by intro y hy; simp [hy]) (by intro y hy; simp [hy]),
    filter_false_of_content Cboil _ (by intro y hy; simp [hy]),
    filter_false_of_content Cns _ (by intro y hy; simp [hy])]
    simp [List.append_nil, List.nil_append]
  have hEot : (registerAll initComponents (specEmit hc1)).other = oth ++ hc1.noscript.toList := by
    rw [fresh_other (specEmit hc1) hndOut, hsh]
    simp only [occA, List.filter_append]
    rw [filter_false_of_content Cmc _ (by intro y hy; simp [hy]),
    filter_false_of_content Crcss _ (by intro y hy; simp [hy]),
    filter_false_of_content Csar _ (by intro y hy; simp [hy]),
    filter_false_of_content Cmo _ (by intro y hy; simp [hy]),
    filter_false_of_content Ceng _ (by intro y hy; simp [hy]),
    filter_false_of_content Cav _ (by intro y hy; simp [hy]),
    filter_false_of_content Cgv _ (by intro y hy; simp [hy]),
    filter_false_of_content Crde _ (by intro y hy; simp [hy]),
    filter_false_of_content Cnrde _ (by intro y hy; simp [hy]),
    filter_false_of_content Cic _ (by intro y hy; simp [hy]),
    filter_false_of_content Chi _ (by intro y hy; simp [hy]),
    filter_false_of_content Cls _ (by intro y hy; simp [hy]),
    filter_false_of_content Ccust _ (by intro y hy; simp [hy]),
    filter_true_of_content2 C14 _ (by intro y hy; simp [hy]) (by intro y hy; simp [hy]),
    filter_false_of_content Cboil _ (by intro y hy; simp [hy]),
    filter_true_of_content Cns _ (by intro y hy; simp [hy])]
    simp [List.append_nil, List.nil_append]
  have hEns : (registerAll initComponents (specEmit hc1)).noscript = hc1.noscript := by
    rw [fresh_noscript (specEmit hc1), hsh]
    simp only [occA, List.filter_append]
    rw [filter_false_of_content Cmc _ (by intro y hy; simp [hy]),
    filter_false_of_content Crcss _ (by intro y hy; simp [hy]),
    filter_false_of_content Csar _ (by intro y hy; simp [hy]),
    filter_false_of_content Cmo _ (by intro y hy; simp [hy]),
    filter_false_of_content Ceng _ (by intro y hy; simp [hy]),
    filter_false_of_content Cav _ (by intro y hy; simp [hy]),
    filter_false_of_content Cgv _ (by intro y hy; simp [hy]),
    filter_false_of_content Crde _ (by intro y hy; simp [hy]),
    filter_false_of_content Cnrde _ (by intro y hy; simp [hy]),
    filter_false_of_content Cic _ (by intro y hy; simp [hy]),
    filter_false_of_content Chi _ (by intro y hy; simp [hy]),
    filter_false_of_content Cls _ (by intro y hy; simp [hy]),
    filter_false_of_content Ccust _ (by intro y hy; simp [hy]),
    filter_false_of_content Cboil _ (by intro y hy; simp [hy]),
    filter_true_of_content Cns _ (by intro y hy; simp [hy])]
    simp only [List.append_nil, List.nil_append]
    cases hns2 : hc1.noscript with
    | some n =>
        rw [show (some n : Option Element).toList = [n] from rfl, List.getLast?_concat]
    | none =>
        rw [show (none : Option Element).toList = ([] : List Element) from rfl, List.append_nil]
        rw [List.filter_eq_nil_iff.mpr (fun a ha => by simp [hnsOther hns2 a (hmem a ha)])]
        rfl
  have hEls : (registerAll initComponents (specEmit hc1)).linkStylesheetBeforeAmpCustom =
      hc1.linkStylesheetBeforeAmpCustom := by
    rw [fresh_lsbac (specEmit hc1), hsh]
    have hcusts : (∃ c, hc1.styleAmpCustom = some c) ∨ hc1.styleAmpCustom = none := by
      cases hc1.styleAmpCustom with
      | some c => exact Or.inl ⟨c, rfl⟩
      | none => exact Or.inr rfl
    rcases hcusts with ⟨c, hcust⟩ | hcust
    case inr =>
        rw [takeWhile_all ?hall]
        case hall =>
          intro x hx
          simp only [occA, List.mem_append, or_assoc] at hx
          rcases hx with hx|hx|hx|hx|hx|hx|hx|hx|hx|hx|hx|hx|hx|hx|hx|hx
          · simp [Cmc x hx]
          · simp [Crcss x hx]
          · simp [Csar x hx]
          · simp [Cmo x hx]
          · simp [Ceng x hx]
          · simp [Cav x hx]
          · simp [Cgv x hx]
          · simp [Crde x hx]
          · simp [Cnrde x hx]
          · simp [Cic x hx]
          · simp [Chi x hx]
          · simp [Cls x hx]
          · rw [hcust] at hx; simp at hx
          · rcases C14 x hx with h|h <;> simp [h]
          · simp [Cboil x hx]
          · simp [Cns x hx]
        simp only [occA, List.filter_append]
        rw [filter_false_of_content Cmc _ (by intro y hy; simp [hy]),
    filter_false_of_content Crcss _ (by intro y hy; simp [hy]),
    filter_false_of_content Csar _ (by intro y hy; simp [hy]),
    filter_false_of_content Cmo _ (by intro y hy; simp [hy]),
    filter_false_of_content Ceng _ (by intro y hy; simp [hy]),
    filter_false_of_content Cav _ (by intro y hy; simp [hy]),
    filter_false_of_content Cgv _ (by intro y hy; simp [hy]),
    filter_false_of_content Crde _ (by intro y hy; simp [hy]),
    filter_false_of_content Cnrde _ (by intro y hy; simp [hy]),
    filter_false_of_content Cic _ (by intro y hy; simp [hy]),
    filter_false_of_content Chi _ (by intro y hy; simp [hy]),
    filter_true_of_content Cls _ (by intro y hy; simp [hy]),
    filter_false_of_content Ccust _ (by intro y hy; simp [hy]),
    filter_false_of_content2 C14 _ (by intro y hy; simp [hy]) (by intro y hy; simp [hy]),
    filter_false_of_content Cboil _ (by intro y hy; simp [hy]),
    filter_false_of_content Cns _ (by intro y hy; simp [hy])]
        simp [List.append_nil, List.nil_append]
    case inl =>
        simp only [occA, List.append_assoc]
        rw [      takeWhile_append_pos (fun x hx => by simp [Cmc x hx]),
      takeWhile_append_pos (fun x hx => by simp [Crcss x hx]),
      takeWhile_append_pos (fun x hx => by simp [Csar x hx]),
      takeWhile_append_pos (fun x hx => by simp [Cmo x hx]),
      takeWhile_append_pos (fun x hx => by simp [Ceng x hx]),
      takeWhile_append_pos (fun x hx => by simp [Cav x hx]),
      takeWhile_append_pos (fun x hx => by simp [Cgv x hx]),
      takeWhile_append_pos (fun x hx => by simp [Crde x hx]),
      takeWhile_append_pos (fun x hx => by simp [Cnrde x hx]),
      takeWhile_append_pos (fun x hx => by simp [Cic x hx]),
      takeWhile_append_pos (fun x hx => by simp [Chi x hx]),
      takeWhile_append_pos (fun x hx => by simp [Cls x hx])]
        rw [hcust]
        rw [show (some c : Option Element).toList = [c] from rfl, List.singleton_append]
        rw [List.takeWhile_cons_of_neg (by simp [Ccust c (by rw [hcust]; simp)])]
        simp only [List.append_nil]
        simp only [List.filter_append]
        rw [filter_false_of_content Cmc _ (by intro y hy; simp [hy]),
      filter_false_of_content Crcss _ (by intro y hy; simp [hy]),
      filter_false_of_content Csar _ (by intro y hy; simp [hy]),
      filter_false_of_content Cmo _ (by intro y hy; simp [hy]),
      filter_false_of_content Ceng _ (by intro y hy; simp [hy]),
      filter_false_of_content Cav _ (by intro y hy; simp [hy]),
      filter_false_of_content Cgv _ (by intro y hy; simp [hy]),
      filter_false_of_content Crde _ (by intro y hy; simp [hy]),
      filter_false_of_content Cnrde _ (by intro y hy; simp [hy]),
      filter_false_of_content Cic _ (by intro y hy; simp [hy]),
      filter_false_of_content Chi _ (by intro y hy; simp [hy]),
      filter_true_of_content Cls _ (by intro y hy; simp [hy])]
        simp [List.append_nil, List.nil_append]
  have hunf : specEmit (registerAll initComponents (specEmit hc1)) =
      occA (registerAll initComponents (specEmit hc1)) ++
        (match (registerAll initComponents (specEmit hc1)).noscript with
         | some n => (registerAll initComponents (specEmit hc1)).other.filter
             (fun c => decide (c ≠ n))
         | none => (registerAll initComponents (specEmit hc1)).other) ++
        (registerAll initComponents (specEmit hc1)).styleAmpBoilerplate.toList ++
        (registerAll initComponents (specEmit hc1)).noscript.toList := rfl
  rw [hunf]
  simp only [occA]
  rw [hEmc, hErcss, hEsar, hEmo, hEeng, hEav, hEgv, hErde, hEnrde, hEic, hEhi, hEls,
    hEcust, hEot, hEboil, hEns, hsh]
  simp only [occA]
  cases hns2 : hc1.noscript with
  | none =>
      rw [hothNone hns2]
      simp [hns2]
  | some n =>
      have hoth := hothSome n hns2
      simp only [hns2]
      rw [show (some n : Option Element).toList = [n] from rfl]
      rw [List.filter_append]
      rw [List.filter_eq_self.mpr (fun a ha => by rw [hoth] at ha; exact (List.mem_filter.mp ha).2)]
      simp

theorem specEmit_registerAll (h : List Element) (hnd : h.Nodup) :
    specEmit (registerAll initComponents (specEmit (registerAll initComponents h))) =
      specEmit (registerAll initComponents h) := by
  have hInv : Inv (registerAll initComponents h) := inv_registerAll_init hnd
  have hndOut : (specEmit (registerAll initComponents h)).Nodup := by
    rw [← repopulate_of_inv hInv]
    exact nodup_repopulate _
  refine reclassify_contents _ hndOut
    (content_of_slot_match (fresh_metaCharset h))
    (content_of_slot_match (fresh_runtimeCss h))
    (content_of_slot_match (fresh_styleRuntime h))
    (content_of_filter_eq (fresh_metaOther h hnd))
    (content_of_slot_match (fresh_engine h))
    (content_of_slot_match (fresh_viewer h))
    (content_of_slot_match (fresh_gmail h))
    (content_of_filter_eq (fresh_rde h))
    (content_of_filter_eq (fresh_nrde h))
    (content_of_filter_eq (fresh_icons h))
    (content_of_filter_eq (fresh_hints h))
    (content_of_filter_eq (fresh_lsbac h))
    (content_of_slot_match (fresh_styleCustom h))
    (content_of_filter_eq (fresh_other h hnd))
    (content_of_slot_match (fresh_styleBoiler h))
    (content_of_slot_match (fresh_noscript h))
    ?_
  intro hn x hx hr
  have hfil : h.filter (fun x => decide (routeOf x = Route.noscript)) = [] := by
    by_contra hne
    obtain ⟨y, hy⟩ := Option.isSome_iff_exists.mp (List.getLast?_isSome.mpr hne)
    have hfr := fresh_noscript h
    rw [hn, hy] at hfr
    simp at hfr
  have hxh : x ∈ h := by
    have h2 := fresh_other h hnd
    rw [h2] at hx
    exact (List.mem_filter.mp hx).1
  have hxf : x ∈ h.filter (fun x => decide (routeOf x = Route.noscript)) :=
    List.mem_filter.mpr ⟨hxh, by simp [hr]⟩
  rw [hfil] at hxf
  exact absurd hxf (List.not_mem_nil x)

/-- C2 (amended): reorderHead is idempotent when each call runs on a freshly
constructed transformer (a per-call registry): for every duplicate-free head,
a fresh-instance call succeeds with some output child list, and a second
fresh-instance call on that output succeeds and returns the very same list.
On a reused instance idempotence fails, because the registry built in the
constructor persists across calls. -/
theorem c2_fresh_instance_idempotent (h : List Element) (hnd : h.Nodup) :
    ∃ hc1 hc2 out,
      reorderHead initComponents (some h) = Except.ok (hc1, out) ∧
      reorderHead initComponents (some out) = Except.ok (hc2, out) := by
  refine ⟨registerAll initComponents h,
    registerAll initComponents (repopulate [] (registerAll initComponents h)),
    repopulate [] (registerAll initComponents h), rfl, ?_⟩
  have hInv1 : Inv (registerAll initComponents h) := inv_registerAll_init hnd
  have hout : repopulate [] (registerAll initComponents h) =
      specEmit (registerAll initComponents h) := repopulate_of_inv hInv1
  have hndOut : (repopulate [] (registerAll initComponents h)).Nodup := nodup_repopulate _
  have hInv2 : Inv (registerAll initComponents (repopulate [] (registerAll initComponents h))) :=
    inv_registerAll_init hndOut
  have key : repopulate [] (registerAll initComponents
      (repopulate [] (registerAll initComponents h))) =
      repopulate [] (registerAll initComponents h) := by
    rw [repopulate_of_inv hInv2, hout, specEmit_registerAll h hnd]
  have step2 : reorderHead initComponents
      (some (repopulate [] (registerAll initComponents h))) =
      Except.ok (registerAll initComponents (repopulate [] (registerAll initComponents h)),
        repopulate [] (registerAll initComponents
          (repopulate [] (registerAll initComponents h)))) := rfl
  rw [step2, key]

theorem c2_fresh_instance_idempotent_witness :
    ([elPlainScript, elTitle] : List Element).Nodup ∧
      ∃ hc1 hc2 out,
        reorderHead initComponents (some [elPlainScript, elTitle]) = Except.ok (hc1, out) ∧
        reorderHead initComponents (some out) = Except.ok (hc2, out) :=
  ⟨by decide, c2_fresh_instance_idempotent [elPlainScript, elTitle] (by decide)⟩


end AmpReorder
